import Mathlib

/-!
# coztrail `lua/coztrail/llm/summary.go`

A shallow embedding of the single-shot chat-completion client: the request
and response records, the request built by `callOpenAI`, the parts of Go's
`encoding/json`, `unicode/utf8` and `strconv` that the program calls on its
records, and the control flow of `callOpenAI` and `main` over an explicit
description of the process environment.

* Go strings are byte sequences, so a string is a list of bytes here; a file may
  hold any bytes.
* A run is a function of a `World`: the arguments, the file system, the
  environment variables, the path of the executable and the transport of the
  HTTP client. It yields the two output streams, the exit status and the list
  of calls made on the world, in order.
* The client is `&http.Client{}`, which has no `CheckRedirect`: its redirect
  loop is modelled, so one call of `client.Do` may send several HTTP requests.
* An `error` is the text of its message. The wording of the errors of the
  operating system, of the HTTP client and of package json belongs to the world.
* `json.Marshal` and `json.Unmarshal` are modelled at the types the program
  uses them at: the scanner (syntax and nesting limit), the unquoting of
  strings, the matching of keys to fields, decoding into values that already
  hold data, and the shortest decimal form of a binary64. `int` has 64 bits.
-/

set_option autoImplicit false

namespace Coztrail

/-! ## Bytes and strings -/

/-- A Go `byte`. -/
abbrev Byte := Fin 256

/-- A Go `string`: an arbitrary sequence of bytes, not necessarily UTF-8. -/
abbrev GoString := List Byte

/-- The byte with the given value (conversion `byte(n)`, which truncates). -/
def byte (n : Nat) : Byte := ⟨n % 256, Nat.mod_lt _ (by decide)⟩

/-- Constant `utf8.RuneError`, the replacement character U+FFFD. -/
def RuneError : Nat := 0xFFFD

/-- Function `utf8.EncodeRune`: the UTF-8 encoding of a rune. Surrogates and
values above U+10FFFF are encoded as U+FFFD. -/
def EncodeRune (r : Nat) : GoString :=
  if r ≤ 0x7F then [byte r]
  else if r ≤ 0x7FF then [byte (0xC0 + r / 64), byte (0x80 + r % 64)]
  else if 0x10FFFF < r ∨ (0xD800 ≤ r ∧ r ≤ 0xDFFF) then [0xEF, 0xBF, 0xBD]
  else if r ≤ 0xFFFF then
    [byte (0xE0 + r / 4096), byte (0x80 + r / 64 % 64), byte (0x80 + r % 64)]
  else
    [byte (0xF0 + r / 262144), byte (0x80 + r / 4096 % 64), byte (0x80 + r / 64 % 64),
      byte (0x80 + r % 64)]

/-- The bytes of a source-code string literal (Go source is UTF-8). -/
def str (s : String) : GoString :=
  (s.toList.map (fun c => EncodeRune c.toNat)).flatten

/-- Table `first` of package utf8, reduced to the width it announces for a
leading byte: 0 for a byte that cannot start a multi-byte sequence. -/
def leadWidth (p0 : Nat) : Nat :=
  if 0xC2 ≤ p0 ∧ p0 ≤ 0xDF then 2
  else if 0xE0 ≤ p0 ∧ p0 ≤ 0xEF then 3
  else if 0xF0 ≤ p0 ∧ p0 ≤ 0xF4 then 4
  else 0

/-- Table `acceptRanges` of package utf8: the lowest second byte a leading
byte accepts. -/
def acceptLo (p0 : Nat) : Nat :=
  if p0 = 0xE0 then 0xA0 else if p0 = 0xF0 then 0x90 else 0x80

/-- Table `acceptRanges` of package utf8: the highest second byte a leading
byte accepts. -/
def acceptHi (p0 : Nat) : Nat :=
  if p0 = 0xED then 0x9F else if p0 = 0xF4 then 0x8F else 0xBF

/-- A continuation byte, `locb <= b && b <= hicb`. -/
def isCont (b : Nat) : Bool := 0x80 ≤ b ∧ b ≤ 0xBF

/-- Function `utf8.DecodeRune` (and `DecodeRuneInString`): the first rune of
the input and its width in bytes; `(RuneError, 0)` on empty input and
`(RuneError, 1)` on an encoding that is invalid, too short or not the shortest. -/
def DecodeRune : GoString → Nat × Nat
  | [] => (RuneError, 0)
  | p0 :: rest =>
    if p0.val < 0x80 then (p0.val, 1)
    else if leadWidth p0.val = 0 then (RuneError, 1)
    else
      match rest with
      | [] => (RuneError, 1)
      | b1 :: rest1 =>
        if b1.val < acceptLo p0.val ∨ acceptHi p0.val < b1.val then (RuneError, 1)
        else if leadWidth p0.val = 2 then (p0.val % 32 * 64 + b1.val % 64, 2)
        else
          match rest1 with
          | [] => (RuneError, 1)
          | b2 :: rest2 =>
            if ¬ isCont b2.val then (RuneError, 1)
            else if leadWidth p0.val = 3 then
              (p0.val % 16 * 4096 + b1.val % 64 * 64 + b2.val % 64, 3)
            else
              match rest2 with
              | [] => (RuneError, 1)
              | b3 :: _ =>
                if ¬ isCont b3.val then (RuneError, 1)
                else
                  (p0.val % 8 * 262144 + b1.val % 64 * 4096 + b2.val % 64 * 64
                    + b3.val % 64, 4)

/-- The loop of `utf8.ValidString`: no rune of the input decodes to
`(RuneError, 1)`. Each round consumes at least one byte, so fuel equal to the
length of the input is enough. -/
def validLoop : Nat → GoString → Bool
  | _, [] => true
  | 0, _ :: _ => false
  | fuel + 1, p0 :: rest =>
    let d := DecodeRune (p0 :: rest)
    if d.1 = RuneError ∧ d.2 = 1 then false
    else validLoop fuel ((p0 :: rest).drop d.2)

/-- Function `utf8.ValidString`: the string is valid UTF-8. -/
def ValidString (s : GoString) : Bool := validLoop s.length s

/-! ## Data model -/

/-- Go type `Message`. -/
structure Message where
  Role : GoString
  Content : GoString
  deriving DecidableEq, Repr

/-- A Go slice as far as `len`, indexing, the nil test and decoding into it
can tell: nil, or the elements below the length together with those elements
of the backing array past the length that still hold what was written
there earlier. -/
inductive Slice (α : Type) where
  | nil : Slice α
  | backed (elems : List α) (spare : List α) : Slice α
  deriving DecidableEq, Repr

/-- The elements `s[0], ..., s[len(s)-1]`. -/
def Slice.toList {α : Type} : Slice α → List α
  | .nil => []
  | .backed elems _ => elems

/-- A slice literal `[]T{...}`. -/
def Slice.lit {α : Type} (xs : List α) : Slice α := .backed xs []

/-- An IEEE 754 binary64 value by its three bit fields. -/
structure Float64 where
  sign : Bool
  expo : Fin 2048
  frac : Fin 4503599627370496
  deriving DecidableEq, Repr

/-- Go type `ChatCompletionRequest`. -/
structure ChatCompletionRequest where
  Model : GoString
  Messages : Slice Message
  Temperature : Float64
  MaxTokens : Int
  deriving DecidableEq, Repr

/-- Go type `Choice`. -/
structure Choice where
  Message : Message
  deriving DecidableEq, Repr

/-- Go type `ChatCompletionResponse`. -/
structure ChatCompletionResponse where
  Choices : Slice Choice
  deriving DecidableEq, Repr

/-! ## Package strconv: integers and binary64 numbers -/

/-- The decimal digits of a natural number, as `strconv.AppendUint` writes them. -/
def formatNat (n : Nat) : GoString :=
  (Nat.toDigits 10 n).map (fun c => byte c.toNat)

/-- Function `strconv.AppendInt(_, n, 10)`; also what the verb `%d` prints. -/
def formatInt (n : Int) : GoString :=
  if n < 0 then (0x2D : Byte) :: formatNat n.natAbs else formatNat n.natAbs

/-- An ASCII decimal digit. -/
def isDigit (c : Byte) : Bool := 0x30 ≤ c.val ∧ c.val ≤ 0x39

/-- Reads the leading decimal digits of the input: the number they spell
after the digits already read, how many there were, and what follows. -/
def readDigits : Nat → Nat → GoString → Nat × Nat × GoString
  | acc, n, [] => (acc, n, [])
  | acc, n, c :: rest =>
    if isDigit c then readDigits (acc * 10 + (c.val - 0x30)) (n + 1) rest
    else (acc, n, c :: rest)

/-- Function `strconv.ParseInt(s, 10, 64)` on a JSON number literal: an optional
minus sign and digits only, and a value that fits an `int64`. -/
def ParseInt (lit : GoString) : Option Int :=
  let neg := lit.head? = some 0x2D
  let body := if neg then lit.drop 1 else lit
  match readDigits 0 0 body with
  | (v, n, []) =>
    if n = 0 then none
    else if neg then (if v ≤ 2 ^ 63 then some (-(v : Int)) else none)
    else (if v < 2 ^ 63 then some (v : Int) else none)
  | _ => none

/-- A decimal numeral `man * 10 ^ exp10` with its sign. -/
structure Decimal where
  neg : Bool
  man : Nat
  exp10 : Int
  deriving DecidableEq, Repr

/-- Reads a JSON number literal, `-? digits (. digits)? ([eE] [+-]? digits)?`,
as an exact decimal. -/
def readDecimal (lit : GoString) : Option Decimal :=
  let neg := lit.head? = some 0x2D
  let body := if neg then lit.drop 1 else lit
  match readDigits 0 0 body with
  | (i, ni, rest) =>
    if ni = 0 then none
    else
      let fr : Option (Nat × Nat × GoString) :=
        match rest with
        | c :: rest1 =>
          if c = 0x2E then
            (match readDigits i 0 rest1 with
              | (m, nf, rest2) => if nf = 0 then none else some (m, nf, rest2))
          else some (i, 0, rest)
        | [] => some (i, 0, rest)
      match fr with
      | none => none
      | some (m, nf, rest2) =>
        match rest2 with
        | [] => some ⟨neg, m, -(nf : Int)⟩
        | c :: rest3 =>
          if c = 0x65 ∨ c = 0x45 then
            let eneg := rest3.head? = some 0x2D
            let ebody := if rest3.head? = some 0x2D ∨ rest3.head? = some 0x2B
              then rest3.drop 1 else rest3
            match readDigits 0 0 ebody with
            | (e, ne, []) =>
              if ne = 0 then none
              else some ⟨neg, m, (if eneg then -(e : Int) else (e : Int)) - (nf : Int)⟩
            | _ => none
          else none

/-- The comparison `num / den ≥ 2 ^ l`. -/
def geTwoPow (num den : Nat) (l : Int) : Bool :=
  if 0 ≤ l then den * 2 ^ l.toNat ≤ num else den ≤ num * 2 ^ (-l).toNat

/-- The comparison `num / den ≥ 10 ^ p`. -/
def geTenPow (num den : Nat) (p : Int) : Bool :=
  if 0 ≤ p then den * 10 ^ p.toNat ≤ num else den ≤ num * 10 ^ (-p).toNat

/-- The binary64 nearest to the non-negative rational `num / den` (ties to the
even significand), with the given sign; none when it rounds beyond the largest
finite value. -/
def roundBinary64 (sign : Bool) (num den : Nat) : Option Float64 :=
  if num = 0 then some ⟨sign, 0, 0⟩
  else
    let l : Int := (Nat.log2 num : Int) - (Nat.log2 den : Int)
    let lg : Int := if geTwoPow num den l then l else l - 1
    let e : Int := max (lg - 52) (-1074)
    let n1 := if e < 0 then num * 2 ^ (-e).toNat else num
    let d1 := if e < 0 then den else den * 2 ^ e.toNat
    let q := n1 / d1
    let r := n1 % d1
    let m := if d1 < 2 * r ∨ (2 * r = d1 ∧ q % 2 = 1) then q + 1 else q
    let m2 := if m = 2 ^ 53 then 2 ^ 52 else m
    let e2 := if m = 2 ^ 53 then e + 1 else e
    if m2 < 2 ^ 52 then some ⟨sign, 0, ⟨m2 % 4503599627370496, Nat.mod_lt _ (by decide)⟩⟩
    else if 2047 ≤ e2 + 1075 then none
    else some ⟨sign, ⟨(e2 + 1075).toNat % 2048, Nat.mod_lt _ (by decide)⟩,
      ⟨(m2 - 2 ^ 52) % 4503599627370496, Nat.mod_lt _ (by decide)⟩⟩

/-- Function `strconv.ParseFloat(s, 64)` on a JSON number literal: the nearest
binary64, none on a range error (the cut-offs on the position of the decimal
point are those of `floatBits`: beyond them the value is infinite or zero). -/
def ParseFloat (lit : GoString) : Option Float64 :=
  match readDecimal lit with
  | none => none
  | some d =>
    if d.man = 0 then some ⟨d.neg, 0, 0⟩
    else
      let dp : Int := ((Nat.toDigits 10 d.man).length : Int) + d.exp10
      if 310 < dp then none
      else if dp < -330 then some ⟨d.neg, 0, 0⟩
      else if 0 ≤ d.exp10 then roundBinary64 d.neg (d.man * 10 ^ d.exp10.toNat) 1
      else roundBinary64 d.neg d.man (10 ^ (-d.exp10).toNat)

/-- The significand of a finite binary64: its value is `mant * 2 ^ exp2`. -/
def Float64.mant (f : Float64) : Nat :=
  if f.expo.val = 0 then f.frac.val else 4503599627370496 + f.frac.val

/-- The binary exponent of a finite binary64: its value is `mant * 2 ^ exp2`. -/
def Float64.exp2 (f : Float64) : Int :=
  if f.expo.val = 0 then -1074 else (f.expo.val : Int) - 1075

/-- Numerator of the absolute value of a finite binary64. -/
def Float64.num (f : Float64) : Nat :=
  if 0 ≤ f.exp2 then f.mant * 2 ^ f.exp2.toNat else f.mant

/-- Denominator of the absolute value of a finite binary64. -/
def Float64.den (f : Float64) : Nat :=
  if 0 ≤ f.exp2 then 1 else 2 ^ (-f.exp2).toNat

/-- The comparison `|a| < |b|` of two finite binary64 values. -/
def Float64.absLt (a b : Float64) : Bool :=
  a.expo.val < b.expo.val ∨ (a.expo.val = b.expo.val ∧ a.frac.val < b.frac.val)

/-- Whether the decimal `d * 10 ^ s` reads back as the binary64 `f` (signs apart). -/
def readsBack (f : Float64) (d : Nat) (s : Int) : Bool :=
  let r := if 0 ≤ s then roundBinary64 f.sign (d * 10 ^ s.toNat) 1
    else roundBinary64 f.sign d (10 ^ (-s).toNat)
  r = some f

/-- Drops the trailing zeros of a digit string. -/
def stripZeros (ds : GoString) : GoString :=
  (ds.reverse.dropWhile (fun c => c = 0x30)).reverse

/-- The shortest decimal that reads back as the finite non-zero binary64 `f`,
the nearest to `f` among those of that length (verb `-1` of `strconv.AppendFloat`):
its digits, and the position `dp` of the decimal point, the value being
`0.digits * 10 ^ dp`. The search goes through the lengths 1 to 17; at each
length the two decimals of that length around `f` are tried. -/
def shortest (f : Float64) : Nat → Nat → Option (GoString × Int)
  | _, 0 => none
  | k, fuel + 1 =>
    let i0 : Nat := ((List.range 640).find?
      (fun (i : Nat) => geTenPow f.num f.den (309 - Int.ofNat i))).getD 0
    let p : Int := 309 - Int.ofNat i0
    let s : Int := p + 1 - k
    let lo := if 0 ≤ s then f.num / (f.den * 10 ^ s.toNat) else f.num * 10 ^ (-s).toNat / f.den
    let hi := lo + 1
    let okLo := readsBack f lo s
    let okHi := readsBack f hi s
    -- twice f against lo + hi, both in units of 10 ^ s
    let twoF_num := if 0 ≤ s then 2 * f.num else 2 * f.num * 10 ^ (-s).toNat
    let mid_num := if 0 ≤ s then (lo + hi) * (f.den * 10 ^ s.toNat) else (lo + hi) * f.den
    let pickLo := okLo ∧ (¬ okHi ∨ twoF_num < mid_num ∨ (twoF_num = mid_num ∧ lo % 2 = 0))
    if pickLo then some (stripZeros (formatNat lo), s + (formatNat lo).length)
    else if okHi then some (stripZeros (formatNat hi), s + (formatNat hi).length)
    else shortest f (k + 1) fuel

/-- The binary64 value of the constant `1e-6`. -/
def float1em6 : Float64 := ⟨false, 1003, 0x0C6F7A0B5ED8D⟩

/-- The binary64 value of the constant `1e21`. -/
def float1e21 : Float64 := ⟨false, 1092, 0xB1AE4D6E2EF50⟩

/-- The float encoder of package json on a finite binary64: format `f`, or
format `e` below `1e-6` and from `1e21` on, with the shortest digits, and a
one-digit exponent written without its leading zero. -/
def formatFloat (f : Float64) : GoString :=
  let sgn : GoString := if f.sign then [0x2D] else []
  if f.mant = 0 then sgn ++ [0x30]
  else
    match shortest f 1 17 with
    | none => sgn
    | some (ds, dp) =>
      if f.absLt float1em6 ∨ ¬ f.absLt float1e21 then
        let x : Int := dp - 1
        sgn ++ ds.take 1 ++ (if 1 < ds.length then (0x2E : Byte) :: ds.drop 1 else [])
          ++ [0x65] ++ (if x < 0 then [0x2D] else [0x2B])
          ++ formatNat x.natAbs
      else if dp ≤ 0 then
        sgn ++ [0x30, 0x2E] ++ List.replicate (-dp).toNat 0x30 ++ ds
      else if (ds.length : Int) ≤ dp then
        sgn ++ ds ++ List.replicate (dp.toNat - ds.length) 0x30
      else
        sgn ++ ds.take dp.toNat ++ [0x2E] ++ ds.drop dp.toNat

/-! ## Package encoding/json: encoding -/

/-- The errors of package json that the program can meet. Their wording is not
modelled: the environment supplies it. -/
inductive JsonError where
  | SyntaxError : JsonError
  | UnmarshalTypeError (Value : GoString) (GoType : GoString) : JsonError
  | UnsupportedValueError : JsonError
  deriving DecidableEq, Repr

/-- Table `htmlSafeSet`: the ASCII bytes that `json.Marshal` copies into a
string literal as they are. -/
def htmlSafe (b : Byte) : Bool :=
  0x20 ≤ b.val ∧ b.val < 0x80 ∧ b ≠ 0x22 ∧ b ≠ 0x26 ∧ b ≠ 0x3C ∧ b ≠ 0x3E ∧ b ≠ 0x5C

/-- The string `hex` of package json, indexed by a nibble. -/
def hex (n : Nat) : Byte := if n < 10 then byte (0x30 + n) else byte (0x61 + (n - 10))

/-- The loop of `appendString` with HTML escaping on, as `json.Marshal` runs it:
safe ASCII and valid multi-byte runes are copied, the quote and the backslash
get a backslash, the named control characters their short escape (backspace
and form feed since Go 1.22, a `\u` escape before), the other ASCII bytes a
`\u00xx` escape, an invalid byte becomes `\ufffd`, and U+2028 and U+2029 are
escaped. Each round consumes at least one byte, so fuel equal to the length of
the input is enough. -/
def appendStringLoop : Nat → GoString → GoString
  | _, [] => []
  | 0, _ :: _ => []
  | fuel + 1, b :: rest =>
    if b.val < 0x80 then
      (if htmlSafe b then [b]
        else if b = 0x5C ∨ b = 0x22 then [0x5C, b]
        else if b = 0x08 then [0x5C, 0x62]
        else if b = 0x0C then [0x5C, 0x66]
        else if b = 0x0A then [0x5C, 0x6E]
        else if b = 0x0D then [0x5C, 0x72]
        else if b = 0x09 then [0x5C, 0x74]
        else [0x5C, 0x75, 0x30, 0x30, hex (b.val / 16), hex (b.val % 16)])
        ++ appendStringLoop fuel rest
    else
      let d := DecodeRune (b :: rest)
      if d.1 = RuneError ∧ d.2 = 1 then
        [0x5C, 0x75, 0x66, 0x66, 0x66, 0x64] ++ appendStringLoop fuel rest
      else if d.1 = 0x2028 ∨ d.1 = 0x2029 then
        [0x5C, 0x75, 0x32, 0x30, 0x32, hex (d.1 % 16)]
          ++ appendStringLoop fuel ((b :: rest).drop d.2)
      else (b :: rest).take d.2 ++ appendStringLoop fuel ((b :: rest).drop d.2)

/-- Function `appendString` of package json: a Go string as a JSON string literal. -/
def appendString (s : GoString) : GoString :=
  (0x22 : Byte) :: appendStringLoop s.length s ++ [0x22]

/-- The struct encoder of package json on a `Message`. -/
def encodeMessage (m : Message) : GoString :=
  [0x7B] ++ str "\"role\":" ++ appendString m.Role
    ++ str ",\"content\":" ++ appendString m.Content ++ [0x7D]

/-- The slice encoder of package json on a `[]Message`: `null` for a nil slice. -/
def encodeMessages : Slice Message → GoString
  | .nil => str "null"
  | .backed elems _ =>
    [0x5B] ++ (List.intersperse [0x2C] (elems.map encodeMessage)).flatten ++ [0x5D]

/-- Function `json.Marshal` on a `ChatCompletionRequest`: the fields in
declaration order under their tag names; an infinite or NaN temperature is an
`UnsupportedValueError`. -/
def Marshal (r : ChatCompletionRequest) : Except JsonError GoString :=
  if r.Temperature.expo.val = 2047 then .error .UnsupportedValueError
  else
    .ok ([0x7B] ++ str "\"model\":" ++ appendString r.Model
      ++ str ",\"messages\":" ++ encodeMessages r.Messages
      ++ str ",\"temperature\":" ++ formatFloat r.Temperature
      ++ str ",\"max_tokens\":" ++ formatInt r.MaxTokens ++ [0x7D])

/-! ## Package encoding/json: the scanner -/

/-- The lexical elements of a JSON text. -/
inductive Token where
  | beginObject | endObject | beginArray | endArray | comma | colon
  | string (raw : GoString)
  | number (lit : GoString)
  | litTrue | litFalse | litNull
  deriving DecidableEq, Repr

/-- The states of the scanner inside and between literals (`stateInString`,
`stateInStringEsc`, `stateInStringEscU...`, `stateNeg`, `state0`, `state1`,
`stateDot`, `stateDot0`, `stateE`, `stateESign`, `stateE0`, and the states
spelling `true`, `false` and `null`). A string state carries the bytes read
since the opening quote, a number state the literal read so far. -/
inductive Lex where
  | ready
  | inString (raw : GoString)
  | inStringEsc (raw : GoString)
  | inStringEscU (raw : GoString) (need : Nat)
  | neg (lit : GoString)
  | zero (lit : GoString)
  | int (lit : GoString)
  | dot (lit : GoString)
  | frac (lit : GoString)
  | e (lit : GoString)
  | eSign (lit : GoString)
  | e0 (lit : GoString)
  | word (rest : GoString) (tok : Token)
  deriving DecidableEq, Repr

/-- Function `isSpace` of the scanner. -/
def isSpace (c : Byte) : Bool := c = 0x20 ∨ c = 0x09 ∨ c = 0x0D ∨ c = 0x0A

/-- A hexadecimal digit, as the scanner accepts after `\u`. -/
def isHex (c : Byte) : Bool :=
  (0x30 ≤ c.val ∧ c.val ≤ 0x39) ∨ (0x61 ≤ c.val ∧ c.val ≤ 0x66) ∨ (0x41 ≤ c.val ∧ c.val ≤ 0x46)

/-- One byte read between literals: the tokens it completes and the next state. -/
def stepReady (c : Byte) : Option (List Token × Lex) :=
  if isSpace c then some ([], .ready)
  else if c = 0x7B then some ([.beginObject], .ready)
  else if c = 0x7D then some ([.endObject], .ready)
  else if c = 0x5B then some ([.beginArray], .ready)
  else if c = 0x5D then some ([.endArray], .ready)
  else if c = 0x2C then some ([.comma], .ready)
  else if c = 0x3A then some ([.colon], .ready)
  else if c = 0x22 then some ([], .inString [])
  else if c = 0x2D then some ([], .neg [c])
  else if c = 0x30 then some ([], .zero [c])
  else if isDigit c then some ([], .int [c])
  else if c = 0x74 then some ([], .word (str "rue") .litTrue)
  else if c = 0x66 then some ([], .word (str "alse") .litFalse)
  else if c = 0x6E then some ([], .word (str "ull") .litNull)
  else none

/-- A byte that cannot continue a number ends it and is read again between
literals. -/
def endNumber (lit : GoString) (c : Byte) : Option (List Token × Lex) :=
  (stepReady c).map (fun r => (Token.number lit :: r.1, r.2))

/-- One byte read by the scanner. -/
def step : Lex → Byte → Option (List Token × Lex)
  | .ready, c => stepReady c
  | .inString raw, c =>
    if c = 0x22 then some ([.string raw], .ready)
    else if c = 0x5C then some ([], .inStringEsc (raw ++ [c]))
    else if c.val < 0x20 then none
    else some ([], .inString (raw ++ [c]))
  | .inStringEsc raw, c =>
    if c = 0x62 ∨ c = 0x66 ∨ c = 0x6E ∨ c = 0x72 ∨ c = 0x74 ∨ c = 0x5C ∨ c = 0x2F ∨ c = 0x22
    then some ([], .inString (raw ++ [c]))
    else if c = 0x75 then some ([], .inStringEscU (raw ++ [c]) 4)
    else none
  | .inStringEscU raw need, c =>
    if isHex c then
      (if need ≤ 1 then some ([], .inString (raw ++ [c]))
        else some ([], .inStringEscU (raw ++ [c]) (need - 1)))
    else none
  | .neg lit, c =>
    if c = 0x30 then some ([], .zero (lit ++ [c]))
    else if isDigit c then some ([], .int (lit ++ [c]))
    else none
  | .zero lit, c =>
    if c = 0x2E then some ([], .dot (lit ++ [c]))
    else if c = 0x65 ∨ c = 0x45 then some ([], .e (lit ++ [c]))
    else endNumber lit c
  | .int lit, c =>
    if isDigit c then some ([], .int (lit ++ [c]))
    else if c = 0x2E then some ([], .dot (lit ++ [c]))
    else if c = 0x65 ∨ c = 0x45 then some ([], .e (lit ++ [c]))
    else endNumber lit c
  | .dot lit, c =>
    if isDigit c then some ([], .frac (lit ++ [c])) else none
  | .frac lit, c =>
    if isDigit c then some ([], .frac (lit ++ [c]))
    else if c = 0x65 ∨ c = 0x45 then some ([], .e (lit ++ [c]))
    else endNumber lit c
  | .e lit, c =>
    if c = 0x2B ∨ c = 0x2D then some ([], .eSign (lit ++ [c]))
    else if isDigit c then some ([], .e0 (lit ++ [c]))
    else none
  | .eSign lit, c =>
    if isDigit c then some ([], .e0 (lit ++ [c])) else none
  | .e0 lit, c =>
    if isDigit c then some ([], .e0 (lit ++ [c])) else endNumber lit c
  | .word rest tok, c =>
    match rest with
    | [] => none
    | r :: rs =>
      if c = r then (if rs = [] then some ([tok], .ready) else some ([], .word rs tok))
      else none

/-- End of input (`scanner.eof`): a number may end there, any other literal
may not. -/
def finish : Lex → Option (List Token)
  | .ready => some []
  | .zero lit => some [.number lit]
  | .int lit => some [.number lit]
  | .frac lit => some [.number lit]
  | .e0 lit => some [.number lit]
  | _ => none

/-- The tokens of a JSON text read from the given state; none on a byte the
scanner refuses. -/
def tokenize : Lex → GoString → Option (List Token)
  | st, [] => finish st
  | st, c :: cs =>
    match step st c with
    | none => none
    | some r => (tokenize r.2 cs).map (fun ts => r.1 ++ ts)

/-! ## Package encoding/json: values -/

/-- The value of a hexadecimal digit. -/
def hexVal (c : Byte) : Option Nat :=
  if 0x30 ≤ c.val ∧ c.val ≤ 0x39 then some (c.val - 0x30)
  else if 0x61 ≤ c.val ∧ c.val ≤ 0x66 then some (c.val - 0x61 + 10)
  else if 0x41 ≤ c.val ∧ c.val ≤ 0x46 then some (c.val - 0x41 + 10)
  else none

/-- Function `getu4`: the code unit spelled by a leading `\uXXXX`, none where
the Go function returns -1. -/
def getu4 : GoString → Option Nat
  | c0 :: c1 :: h1 :: h2 :: h3 :: h4 :: _ =>
    if c0 = 0x5C ∧ c1 = 0x75 then
      match hexVal h1, hexVal h2, hexVal h3, hexVal h4 with
      | some a, some b, some c, some d => some (((a * 16 + b) * 16 + c) * 16 + d)
      | _, _, _, _ => none
    else none
  | _ => none

/-- Function `utf16.DecodeRune` on the result of a first and a second call of
`getu4`: the code point of a surrogate pair, U+FFFD otherwise. -/
def utf16DecodeRune (r1 : Nat) (r2 : Option Nat) : Nat :=
  match r2 with
  | some r2 =>
    if 0xD800 ≤ r1 ∧ r1 < 0xDC00 ∧ 0xDC00 ≤ r2 ∧ r2 < 0xE000 then
      (r1 - 0xD800) * 1024 + (r2 - 0xDC00) + 0x10000
    else 0xFFFD
  | none => 0xFFFD

/-- One round of the general loop of `unquoteBytes` on a non-empty input: the
bytes written and the input left. An escape is resolved, a surrogate pair of
`\u` escapes is one rune, a lone surrogate is U+FFFD, an ASCII byte is copied,
and a byte sequence that is not valid UTF-8 is replaced by U+FFFD; a quote, a
control character or a malformed escape fails. -/
def unquoteStep (c : Byte) (rest : GoString) : Option (GoString × GoString) :=
  if c = 0x5C then
    match rest with
    | [] => none
    | x :: rest2 =>
      if x = 0x22 ∨ x = 0x5C ∨ x = 0x2F ∨ x = 0x27 then some ([x], rest2)
      else if x = 0x62 then some ([0x08], rest2)
      else if x = 0x66 then some ([0x0C], rest2)
      else if x = 0x6E then some ([0x0A], rest2)
      else if x = 0x72 then some ([0x0D], rest2)
      else if x = 0x74 then some ([0x09], rest2)
      else if x = 0x75 then
        match getu4 (c :: rest) with
        | none => none
        | some rr =>
          let rest3 := rest2.drop 4
          if 0xD800 ≤ rr ∧ rr < 0xE000 then
            let dec := utf16DecodeRune rr (getu4 rest3)
            if dec ≠ 0xFFFD then some (EncodeRune dec, rest3.drop 6)
            else some (EncodeRune 0xFFFD, rest3)
          else some (EncodeRune rr, rest3)
      else none
  else if c = 0x22 ∨ c.val < 0x20 then none
  else if c.val < 0x80 then some ([c], rest)
  else
    let d := DecodeRune (c :: rest)
    some (EncodeRune d.1, (c :: rest).drop d.2)

/-- The general loop of `unquoteBytes` on the bytes between the quotes of a
string literal. (The Go function first looks for a prefix that needs no change
and returns the input itself when that is all of it; the loop gives the same
bytes.) Each round consumes at least one byte, so fuel equal to the length of
the input is enough. -/
def unquoteLoop : Nat → GoString → Option GoString
  | _, [] => some []
  | 0, _ :: _ => none
  | fuel + 1, c :: rest =>
    match unquoteStep c rest with
    | none => none
    | some r => (unquoteLoop fuel r.2).map (fun t => r.1 ++ t)

/-- Function `unquoteBytes`, applied to the bytes between the quotes. -/
def unquote (raw : GoString) : Option GoString := unquoteLoop raw.length raw

/-- A JSON value. A number keeps its literal, a string is unquoted. -/
inductive JSON where
  | null : JSON
  | bool (b : Bool) : JSON
  | number (lit : GoString) : JSON
  | string (s : GoString) : JSON
  | array (elems : List JSON) : JSON
  | object (members : List (GoString × JSON)) : JSON
  deriving Repr

/-- An open array or object on the scanner's parse stack, with what has been
read of it, latest first, and for an object the key whose value is awaited. -/
inductive Frame where
  | array (done : List JSON) : Frame
  | object (done : List (GoString × JSON)) (key : Option GoString) : Frame

/-- What the scanner expects next (`stateBeginValue`, `stateBeginValueOrEmpty`,
`stateBeginStringOrEmpty`, `stateBeginString`, the colon after a key,
`stateEndValue`, `stateEndTop`). -/
inductive Phase where
  | beginValue | beginValueOrEmpty | beginStringOrEmpty | beginString | objectKey | endValue
  | endTop (v : JSON)

/-- Constant `maxNestingDepth` of the scanner. -/
def maxNestingDepth : Nat := 10000

/-- A value is complete: it is the whole text, or it joins the innermost open
array or object. -/
def complete (v : JSON) : List Frame → Option (List Frame × Phase)
  | [] => some ([], .endTop v)
  | .array done :: stack => some (.array (v :: done) :: stack, .endValue)
  | .object done (some k) :: stack => some (.object ((k, v) :: done) none :: stack, .endValue)
  | .object _ none :: _ => none

/-- A token where a value must begin. An array or object is opened unless that
exceeds the nesting limit. -/
def beginValue (t : Token) (stack : List Frame) : Option (List Frame × Phase) :=
  match t with
  | .string raw =>
    match unquote raw with
    | some s => complete (.string s) stack
    | none => none
  | .number lit => complete (.number lit) stack
  | .litTrue => complete (.bool true) stack
  | .litFalse => complete (.bool false) stack
  | .litNull => complete .null stack
  | .beginArray =>
    if stack.length < maxNestingDepth then some (.array [] :: stack, .beginValueOrEmpty) else none
  | .beginObject =>
    if stack.length < maxNestingDepth then some (.object [] none :: stack, .beginStringOrEmpty)
    else none
  | _ => none

/-- A token where an object key must stand. -/
def beginKey (t : Token) (stack : List Frame) : Option (List Frame × Phase) :=
  match t, stack with
  | .string raw, .object done _ :: stack =>
    match unquote raw with
    | some k => some (.object done (some k) :: stack, .objectKey)
    | none => none
  | _, _ => none

/-- One token read against the parse stack. -/
def parseStep (stack : List Frame) (ph : Phase) (t : Token) : Option (List Frame × Phase) :=
  match ph with
  | .beginValue => beginValue t stack
  | .beginValueOrEmpty =>
    (match t, stack with
      | .endArray, .array _ :: stack => complete (.array []) stack
      | _, _ => beginValue t stack)
  | .beginStringOrEmpty =>
    (match t, stack with
      | .endObject, .object _ _ :: stack => complete (.object []) stack
      | _, _ => beginKey t stack)
  | .beginString => beginKey t stack
  | .objectKey =>
    (match t with
      | .colon => some (stack, .beginValue)
      | _ => none)
  | .endValue =>
    (match t, stack with
      | .comma, .array done :: stack => some (.array done :: stack, .beginValue)
      | .endArray, .array done :: stack => complete (.array done.reverse) stack
      | .comma, .object done k :: stack => some (.object done k :: stack, .beginString)
      | .endObject, .object done _ :: stack => complete (.object done.reverse) stack
      | _, _ => none)
  | .endTop _ => none

/-- The tokens read one after the other; the text is valid when they end on a
complete top-level value. -/
def parseTokens : List Frame → Phase → List Token → Option JSON
  | _, .endTop v, [] => some v
  | _, _, [] => none
  | stack, ph, t :: ts =>
    match parseStep stack ph t with
    | none => none
    | some r => parseTokens r.1 r.2 ts

/-- The value a JSON text denotes; none when `checkValid` reports a syntax error. -/
def parseJSON (data : GoString) : Option JSON :=
  match tokenize .ready data with
  | none => none
  | some ts => parseTokens [] .beginValue ts

/-! ## Package encoding/json: decoding into the program's types -/

/-- Function `foldRune` as far as ASCII names can tell: U+017F and U+212A are
the only runes outside ASCII whose case-folding orbit reaches an ASCII letter
(S and K); every other rune folds to a rune outside ASCII and is left in
place here. -/
def foldRune (r : Nat) : Nat :=
  if r = 0x17F then 0x53 else if r = 0x212A then 0x4B else r

/-- Function `foldName`: ASCII letters in upper case, other runes folded. Each
round consumes at least one byte, so fuel equal to the length of the input is
enough. -/
def foldNameLoop : Nat → GoString → GoString
  | _, [] => []
  | 0, _ :: _ => []
  | fuel + 1, c :: rest =>
    if c.val < 0x80 then
      (if 0x61 ≤ c.val ∧ c.val ≤ 0x7A then byte (c.val - 0x20) else c) :: foldNameLoop fuel rest
    else
      let d := DecodeRune (c :: rest)
      EncodeRune (foldRune d.1) ++ foldNameLoop fuel ((c :: rest).drop d.2)

/-- Function `foldName` of package json. -/
def foldName (name : GoString) : GoString := foldNameLoop name.length name

/-- The field an object key selects among the tag names of a struct: the one
with exactly that name, else the first one equal to it under `foldName`. -/
def matchField (names : List GoString) (key : GoString) : Option Nat :=
  match names.findIdx? (fun n => n = key) with
  | some i => some i
  | none => names.findIdx? (fun n => foldName n = foldName key)

/-- Method `saveError` of the decoder: the first error is kept, decoding goes on. -/
def saveError (e : JsonError) : Option JsonError → Option JsonError
  | none => some e
  | some first => some first

/-- The word by which an `UnmarshalTypeError` names a JSON value that is not null. -/
def kindName : JSON → GoString
  | .null => str "null"
  | .bool _ => str "bool"
  | .number _ => str "number"
  | .string _ => str "string"
  | .array _ => str "array"
  | .object _ => str "object"

/-- Decoding a JSON value into a Go `string`: a string is stored, null changes
nothing, anything else is a type error. -/
def decodeString (j : JSON) (cur : GoString) (err : Option JsonError) :
    GoString × Option JsonError :=
  match j with
  | .string s => (s, err)
  | .null => (cur, err)
  | other => (cur, saveError (.UnmarshalTypeError (kindName other) (str "string")) err)

/-- Decoding a JSON value into a Go `int` (64 bits): a number that `ParseInt`
accepts is stored, null changes nothing, anything else is a type error. -/
def decodeInt (j : JSON) (cur : Int) (err : Option JsonError) : Int × Option JsonError :=
  match j with
  | .number lit =>
    (match ParseInt lit with
      | some n => (n, err)
      | none => (cur, saveError (.UnmarshalTypeError (str "number " ++ lit) (str "int")) err))
  | .null => (cur, err)
  | other => (cur, saveError (.UnmarshalTypeError (kindName other) (str "int")) err)

/-- Decoding a JSON value into a Go `float64`: a number that `ParseFloat`
accepts is stored, null changes nothing, anything else is a type error. -/
def decodeFloat (j : JSON) (cur : Float64) (err : Option JsonError) :
    Float64 × Option JsonError :=
  match j with
  | .number lit =>
    (match ParseFloat lit with
      | some f => (f, err)
      | none => (cur, saveError (.UnmarshalTypeError (str "number " ++ lit) (str "float64")) err))
  | .null => (cur, err)
  | other => (cur, saveError (.UnmarshalTypeError (kindName other) (str "float64")) err)

/-- The members of an object decoded one after the other into a struct. -/
def decodeMembers {α : Type} (field : GoString → JSON → α → Option JsonError → α × Option JsonError) :
    List (GoString × JSON) → α → Option JsonError → α × Option JsonError
  | [], v, err => (v, err)
  | (k, j) :: rest, v, err =>
    let r := field k j v err
    decodeMembers field rest r.1 r.2

/-- Decoding a JSON value into a struct: the members of an object go to the
fields their keys select (unknown keys are skipped), null changes nothing,
anything else is a type error. -/
def decodeStruct {α : Type} (typeName : GoString)
    (field : GoString → JSON → α → Option JsonError → α × Option JsonError)
    (j : JSON) (cur : α) (err : Option JsonError) : α × Option JsonError :=
  match j with
  | .object members => decodeMembers field members cur err
  | .null => (cur, err)
  | other => (cur, saveError (.UnmarshalTypeError (kindName other) typeName) err)

/-- The elements of a JSON array decoded into the slots of a slice: slot `i`
starts from what the backing array holds there, or from the zero value. -/
def decodeElems {α : Type} (zero : α) (elem : JSON → α → Option JsonError → α × Option JsonError) :
    List JSON → List α → Option JsonError → List α × Option JsonError
  | [], _, err => ([], err)
  | j :: js, old, err =>
    let r := elem j (old.headD zero) err
    let rs := decodeElems zero elem js old.tail r.2
    (r.1 :: rs.1, rs.2)

/-- Decoding a JSON value into a slice (method `array` of the decoder): the
elements of an array are decoded into the existing slots, the length becomes
their number and an empty array gives a fresh empty slice; null gives the nil
slice; anything else is a type error. -/
def decodeSlice {α : Type} (typeName : GoString) (zero : α)
    (elem : JSON → α → Option JsonError → α × Option JsonError)
    (j : JSON) (cur : Slice α) (err : Option JsonError) : Slice α × Option JsonError :=
  match j with
  | .array [] => (.backed [] [], err)
  | .array (e :: es) =>
    let old := match cur with
      | .nil => []
      | .backed elems spare => elems ++ spare
    let r := decodeElems zero elem (e :: es) old err
    (.backed r.1 (old.drop (e :: es).length), r.2)
  | .null => (.nil, err)
  | other => (cur, saveError (.UnmarshalTypeError (kindName other) typeName) err)

/-- The value of a key of a `Message` object stored in the field it selects. -/
def messageField (k : GoString) (j : JSON) (m : Message) (err : Option JsonError) :
    Message × Option JsonError :=
  match matchField [str "role", str "content"] k with
  | some 0 => let r := decodeString j m.Role err; ({ m with Role := r.1 }, r.2)
  | some 1 => let r := decodeString j m.Content err; ({ m with Content := r.1 }, r.2)
  | _ => (m, err)

/-- Decoding into a `Message`. -/
def decodeMessage : JSON → Message → Option JsonError → Message × Option JsonError :=
  decodeStruct (str "main.Message") messageField

/-- The value of a key of a `Choice` object stored in the field it selects. -/
def choiceField (k : GoString) (j : JSON) (c : Choice) (err : Option JsonError) :
    Choice × Option JsonError :=
  match matchField [str "message"] k with
  | some 0 => let r := decodeMessage j c.Message err; ({ c with Message := r.1 }, r.2)
  | _ => (c, err)

/-- Decoding into a `Choice`. -/
def decodeChoice : JSON → Choice → Option JsonError → Choice × Option JsonError :=
  decodeStruct (str "main.Choice") choiceField

/-- The value of a key of a `ChatCompletionResponse` object stored in the field
it selects. -/
def responseField (k : GoString) (j : JSON) (r : ChatCompletionResponse)
    (err : Option JsonError) : ChatCompletionResponse × Option JsonError :=
  match matchField [str "choices"] k with
  | some 0 =>
    let c := decodeSlice (str "[]main.Choice") (⟨⟨[], []⟩⟩ : Choice) decodeChoice j r.Choices err
    ({ r with Choices := c.1 }, c.2)
  | _ => (r, err)

/-- The value of a key of a `ChatCompletionRequest` object stored in the field
it selects. -/
def requestField (k : GoString) (j : JSON) (r : ChatCompletionRequest)
    (err : Option JsonError) : ChatCompletionRequest × Option JsonError :=
  match matchField [str "model", str "messages", str "temperature", str "max_tokens"] k with
  | some 0 => let x := decodeString j r.Model err; ({ r with Model := x.1 }, x.2)
  | some 1 =>
    let x := decodeSlice (str "[]main.Message") (⟨[], []⟩ : Message) decodeMessage j r.Messages err
    ({ r with Messages := x.1 }, x.2)
  | some 2 => let x := decodeFloat j r.Temperature err; ({ r with Temperature := x.1 }, x.2)
  | some 3 => let x := decodeInt j r.MaxTokens err; ({ r with MaxTokens := x.1 }, x.2)
  | _ => (r, err)

/-- Function `json.Unmarshal(data, &response)` for a `ChatCompletionResponse`
that holds `cur`: the value after the call and the error returned. On a
syntax error nothing is stored; a type error is returned after the rest of the
text has been decoded. -/
def UnmarshalResponse (data : GoString) (cur : ChatCompletionResponse) :
    ChatCompletionResponse × Option JsonError :=
  match parseJSON data with
  | none => (cur, some .SyntaxError)
  | some j => decodeStruct (str "main.ChatCompletionResponse") responseField j cur none

/-- Function `json.Unmarshal(data, &request)` for a `ChatCompletionRequest`
that holds `cur`. -/
def UnmarshalRequest (data : GoString) (cur : ChatCompletionRequest) :
    ChatCompletionRequest × Option JsonError :=
  match parseJSON data with
  | none => (cur, some .SyntaxError)
  | some j => decodeStruct (str "main.ChatCompletionRequest") requestField j cur none

/-! ## The process environment -/

/-- An `http.Request` as far as the program sets it. -/
structure Request where
  Method : GoString
  URL : GoString
  Header : List (GoString × GoString)
  Body : GoString
  deriving DecidableEq, Repr

/-- An `http.Response` as far as the program looks at it: the status code, and
what `io.ReadAll(resp.Body)` returns, the bytes read and the error if any. -/
structure Response where
  StatusCode : Int
  Body : GoString
  ReadErr : Option GoString
  deriving DecidableEq, Repr

/-- What the transport of the HTTP client returns for one HTTP request: the
response, and the value of its `Location` header as `Header.Get` gives it,
empty when the response has none. -/
structure Reply where
  Response : Response
  Location : GoString
  deriving DecidableEq, Repr

/-- Everything outside the program that one run depends on. `ReadFile n name`
is what the call number `n` of `os.ReadFile` in the run returns for `name`
(0 for the prompt, 1 for the template), so a file may change between the two
reads. `RoundTrip n req` is what the transport of the HTTP client returns for
the HTTP request number `n` of the run, `req` being that request: the answer
of the server, or the error. An error of the operating system or of the HTTP
client is given by the text that `%v` prints for it. The functions of package
`filepath` depend on the operating system and are part of the environment, as
is the wording of the errors of package json. Three parts of the client are
taken from the environment too: `ParseLocation url loc` is `URL.Parse` of the
request URL on the `Location` value, the URL of the follow-up request or the
error; `RedirectHeader sent url` is the header the client gives the follow-up
request to `url` after the requests `sent` (the fields of the first request
it copies, `Authorization` only towards the same domain or a subdomain, and a
`Referer`); `redirectErrorText url` is the text of the error of the default
redirect policy, "stopped after 10 redirects", for a redirect to `url`. -/
structure World where
  Args : List GoString
  ReadFile : Nat → GoString → Except GoString GoString
  LookupEnv : GoString → Option GoString
  Executable : Except GoString GoString
  Dir : GoString → GoString
  Join : List GoString → GoString
  RoundTrip : Nat → Request → Except GoString Reply
  ParseLocation : GoString → GoString → Except GoString GoString
  RedirectHeader : List Request → GoString → List (GoString × GoString)
  redirectErrorText : GoString → GoString
  jsonErrorText : JsonError → GoString

/-- Function `redirectBehavior` of package http for a request whose body can
be sent again (`http.NewRequest` sets `GetBody` for the buffer the program
passes): for a redirect status, the method of the follow-up request and
whether it carries the body of the first request; `none` for any other
status. -/
def redirectBehavior (reqMethod : GoString) (status : Int) : Option (GoString × Bool) :=
  if status = 301 ∨ status = 302 ∨ status = 303 then
    some (if reqMethod ≠ str "GET" ∧ reqMethod ≠ str "HEAD" then str "GET" else reqMethod, false)
  else if status = 307 ∨ status = 308 then some (reqMethod, true)
  else none

/-- How one turn of the loop of `Client.do` ends: with what the call returns,
or with the follow-up request of a redirect. -/
inductive Hop where
  | done (result : Except GoString Response)
  | follow (next : Request)

/-- One turn of the loop of `Client.do`, before the redirect policy is asked:
the request goes to the transport; an error ends the call, and so does a
response that is not a redirect or has no `Location`; otherwise the location
is resolved and the follow-up request built. `ireq` is the first request of
the call, `sent` the requests sent before this one. -/
def clientStep (w : World) (ireq : Request) (sent : List Request) (req : Request) : Hop :=
  match w.RoundTrip sent.length req with
  | .error err => .done (.error err)
  | .ok reply =>
    match redirectBehavior req.Method reply.Response.StatusCode with
    | none => .done (.ok reply.Response)
    | some next =>
      if reply.Location = [] then .done (.ok reply.Response)
      else
        match w.ParseLocation req.URL reply.Location with
        | .error err => .done (.error err)
        | .ok url =>
          .follow ⟨next.1, url, w.RedirectHeader (sent ++ [req]) url,
            if next.2 then ireq.Body else []⟩

/-- The loop of `Client.do` for a client with no `CheckRedirect`, as
`&http.Client{}` is: what the call returns, and the HTTP requests sent, in
order. The first argument is the number of follow-up requests the default
policy still allows: it refuses a redirect once ten requests were sent, and
the call then returns an error. -/
def clientLoop (w : World) (ireq : Request) :
    Nat → List Request → Request → Except GoString Response × List Request
  | 0, sent, req =>
    match clientStep w ireq sent req with
    | .done result => (result, sent ++ [req])
    | .follow next => (.error (w.redirectErrorText next.URL), sent ++ [req])
  | allowed + 1, sent, req =>
    match clientStep w ireq sent req with
    | .done result => (result, sent ++ [req])
    | .follow next => clientLoop w ireq allowed (sent ++ [req]) next

/-- Method `Do` of the client of `callOpenAI`: what the call returns. -/
def World.Do (w : World) (req : Request) : Except GoString Response :=
  (clientLoop w req 9 [] req).1

/-- The HTTP requests the client sends during one call of `Do`, in order. -/
def World.Sent (w : World) (req : Request) : List Request :=
  (clientLoop w req 9 [] req).2

/-- The calls a run makes on its environment, in order; `Do` is a call of
`client.Do`. -/
inductive Event where
  | ReadFile (name : GoString)
  | Getenv (key : GoString)
  | Executable
  | Do (req : Request)
  deriving DecidableEq, Repr

/-- What a run leaves behind: the two output streams, the exit status and the
calls made. -/
structure Process where
  Stdout : GoString
  Stderr : GoString
  ExitCode : Nat
  Trace : List Event

/-- Function `os.Getenv`: the empty string for a variable that is not set. -/
def Getenv (w : World) (key : GoString) : GoString := (w.LookupEnv key).getD []

/-- Method `Header.Set`: the value replaces any value of the key. The two keys
the program sets are in canonical form already. -/
def HeaderSet (h : List (GoString × GoString)) (key value : GoString) : List (GoString × GoString) :=
  h.filter (fun kv => kv.1 ≠ key) ++ [(key, value)]

/-- Function `http.NewRequest`: a request with the given method, URL and body
and no header fields. It refuses a method that is not a token and a URL that
does not parse; the literals the program passes are neither, so every call the
program makes returns a request. -/
def NewRequest (method url body : GoString) : Except GoString Request :=
  .ok ⟨method, url, [], body⟩

/-! ## The program -/

/-- Function `loadPrompt`. -/
def loadPrompt (w : World) (filepath : GoString) : Except GoString GoString × List Event :=
  match w.ReadFile 0 filepath with
  | .error err => (.error err, [.ReadFile filepath])
  | .ok data => (.ok data, [.ReadFile filepath])

/-- Function `loadSystemPrompt`. -/
def loadSystemPrompt (w : World) : Except GoString GoString × List Event :=
  match w.Executable with
  | .error err => (.error err, [.Executable])
  | .ok execPath =>
    let dir := w.Dir execPath
    let systemPromptPath := w.Join [dir, str "templates", str "system_prompt.txt"]
    match w.ReadFile 1 systemPromptPath with
    | .error err => (.error err, [.Executable, .ReadFile systemPromptPath])
    | .ok data => (.ok data, [.Executable, .ReadFile systemPromptPath])

/-- The binary64 value of the constant `0.2`. -/
def float0_2 : Float64 := ⟨false, 1020, 0x999999999999A⟩

/-- The composite literal `ChatCompletionRequest{...}` of `callOpenAI`. -/
def buildRequest (systemPrompt userPrompt : GoString) : ChatCompletionRequest :=
  { Model := str "deepseek-chat"
    Messages := .lit [⟨str "system", systemPrompt⟩, ⟨str "user", userPrompt⟩]
    Temperature := float0_2
    MaxTokens := 800 }

/-- The two calls of `req.Header.Set` in `callOpenAI`. -/
def setHeaders (req : Request) (apiKey : GoString) : Request :=
  let req := { req with Header := HeaderSet req.Header (str "Content-Type") (str "application/json") }
  { req with Header := HeaderSet req.Header (str "Authorization") (str "Bearer " ++ apiKey) }

/-- The request `callOpenAI` hands to the client for a serialised body and a
key. The comments of the source speak of the OpenAI API and the key is read
from `OPENAI_API_KEY`; the URL is the literal of the code. -/
def newChatRequest (jsonData apiKey : GoString) : Request :=
  setHeaders ⟨str "POST", str "https://api.deepseek.com/v1/chat/completions", [], jsonData⟩ apiKey

/-- Function `callOpenAI`: the result, an error being the text of its message,
and the calls made on the environment. -/
def callOpenAI (w : World) (userPrompt apiKey : GoString) : Except GoString GoString × List Event :=
  match loadSystemPrompt w with
  | (.error err, t) => (.error (str "failed to load system prompt: " ++ err), t)
  | (.ok systemPrompt, t) =>
    let request := buildRequest systemPrompt userPrompt
    match Marshal request with
    | .error err => (.error (str "failed to marshal request: " ++ w.jsonErrorText err), t)
    | .ok jsonData =>
      match NewRequest (str "POST") (str "https://api.deepseek.com/v1/chat/completions")
          jsonData with
      | .error err => (.error (str "failed to create request: " ++ err), t)
      | .ok req0 =>
        let req := setHeaders req0 apiKey
        match w.Do req with
        | .error err => (.error (str "failed to send request: " ++ err), t ++ [.Do req])
        | .ok resp =>
          if resp.StatusCode ≠ 200 then
            (.error (str "API request failed with status " ++ formatInt resp.StatusCode
              ++ str ": " ++ resp.Body), t ++ [.Do req])
          else
            match resp.ReadErr with
            | some err => (.error (str "failed to read response: " ++ err), t ++ [.Do req])
            | none =>
              let response := UnmarshalResponse resp.Body ⟨.nil⟩
              match response.2 with
              | some err =>
                (.error (str "failed to unmarshal response: " ++ w.jsonErrorText err),
                  t ++ [.Do req])
              | none =>
                match response.1.Choices.toList with
                | [] => (.error (str "no choices in response"), t ++ [.Do req])
                | choice :: _ => (.ok choice.Message.Content, t ++ [.Do req])

/-- Function `main`. -/
def main (w : World) : Process :=
  if w.Args.length < 2 then ⟨[], str "Missing prompt file path\n", 1, []⟩
  else
    let promptPath := w.Args.getD 1 []
    match loadPrompt w promptPath with
    | (.error err, t) => ⟨[], str "Error loading prompt: " ++ err ++ str "\n", 1, t⟩
    | (.ok userPrompt, t) =>
      let apiKey := Getenv w (str "OPENAI_API_KEY")
      if apiKey = [] then
        ⟨[], str "OPENAI_API_KEY is not set\n", 1, t ++ [.Getenv (str "OPENAI_API_KEY")]⟩
      else
        match callOpenAI w userPrompt apiKey with
        | (.error err, t2) =>
          ⟨[], str "Error: " ++ err ++ str "\n", 1, t ++ [.Getenv (str "OPENAI_API_KEY")] ++ t2⟩
        | (.ok result, t2) => ⟨result, [], 0, t ++ [.Getenv (str "OPENAI_API_KEY")] ++ t2⟩

/-! ## Worlds used as concrete instances -/

/-- A response body with two choices. -/
def twoChoicesBody : GoString :=
  str ("\x7b\"id\":\"1\",\"choices\":[\x7b\"message\":\x7b\"role\":\"assistant\",\"content\":\" hi\\n\"\x7d\x7d,"
    ++ "\x7b\"message\":\x7b\"role\":\"assistant\",\"content\":\"later\"\x7d\x7d]\x7d")

/-- A run environment whose files all read as the given text and whose API
stub answers every request with the given response, without a `Location`
header. Where a world built on it redirects, the location is an absolute URL,
which `URL.Parse` returns as it is, on another host, for which the client
copies `Content-Type` only. -/
def stubWorld (args : List GoString) (key : Option GoString) (file : Except GoString GoString)
    (resp : Except GoString Response) : World :=
  { Args := args
    ReadFile := fun _ _ => file
    LookupEnv := fun k => if k = str "OPENAI_API_KEY" then key else none
    Executable := .ok (str "/opt/coztrail/summary")
    Dir := fun _ => str "/opt/coztrail"
    Join := fun parts => (List.intersperse (str "/") parts).flatten
    RoundTrip := fun _ _ => resp.map (fun r => ⟨r, []⟩)
    ParseLocation := fun _ loc => .ok loc
    RedirectHeader := fun _ _ => [(str "Content-Type", str "application/json")]
    redirectErrorText := fun _ => str "stopped after 10 redirects"
    jsonErrorText := fun _ => str "json error" }

/-- The usual command line: program name and prompt file. -/
def stubArgs : List GoString := [str "summary", str "prompt.txt"]

/-- The environment of a successful run: the stub answers 200 with two choices. -/
def happyWorld : World :=
  stubWorld stubArgs (some (str "sk-test")) (.ok (str "Summarise."))
    (.ok ⟨200, twoChoicesBody, none⟩)

/-- The path of the system prompt template for a given executable. -/
def templatePath (w : World) (exe : GoString) : GoString :=
  w.Join [w.Dir exe, str "templates", str "system_prompt.txt"]

/-- Whether an event is a request handed to the HTTP client. -/
def Event.isDo : Event → Bool
  | .Do _ => true
  | _ => false

/-- The HTTP requests sent during the calls of a trace, in order: for each
call of `client.Do`, the requests the client sends. -/
def httpRequests (w : World) (trace : List Event) : List Request :=
  (trace.map (fun e => match e with
    | .Do req => w.Sent req
    | _ => [])).flatten

/-- The URL the stub of `redirectWorld` redirects to. -/
def otherURL : GoString := str "http://127.0.0.1:8081/v1/chat/completions"

/-- The environment of a run whose API stub answers the first HTTP request
with status 307 and `Location: http://127.0.0.1:8081/v1/chat/completions`,
and the second with 200 and two choices. The follow-up request goes to
another host over plain HTTP, so the client copies `Content-Type` only. -/
def redirectWorld : World :=
  { happyWorld with
    RoundTrip := fun n _ =>
      if n = 0 then .ok ⟨⟨307, [], none⟩, otherURL⟩ else .ok ⟨⟨200, twoChoicesBody, none⟩, []⟩ }

/-- Every step of a run succeeds and ends on the given content: two arguments
or more, the prompt file read, a key that is set and not empty, the template
read, the request serialised and answered, status 200, the body read and
decoded, and a first choice with that content. -/
def AllStepsSucceed (w : World) (content : GoString) : Prop :=
  ∃ (userPrompt apiKey exe sys data : GoString) (resp : Response) (first : Choice)
    (later : List Choice),
    2 ≤ w.Args.length
    ∧ w.ReadFile 0 (w.Args.getD 1 []) = .ok userPrompt
    ∧ w.LookupEnv (str "OPENAI_API_KEY") = some apiKey ∧ apiKey ≠ []
    ∧ w.Executable = .ok exe
    ∧ w.ReadFile 1 (templatePath w exe) = .ok sys
    ∧ Marshal (buildRequest sys userPrompt) = .ok data
    ∧ w.Do (newChatRequest data apiKey) = .ok resp
    ∧ resp.StatusCode = 200
    ∧ resp.ReadErr = none
    ∧ (UnmarshalResponse resp.Body ⟨.nil⟩).2 = none
    ∧ (UnmarshalResponse resp.Body ⟨.nil⟩).1.Choices.toList = first :: later
    ∧ content = first.Message.Content

/-- The environment of a run whose stub answers 500 with a well-formed body. -/
def failingWorld : World :=
  stubWorld stubArgs (some (str "sk-test")) (.ok (str "Summarise."))
    (.ok ⟨500, twoChoicesBody, none⟩)

/-- The environment of a run whose stub answers 200 with no choices. -/
def emptyWorld : World :=
  stubWorld stubArgs (some (str "sk-test")) (.ok (str "Summarise."))
    (.ok ⟨200, str "\x7b\"choices\":[]\x7d", none⟩)

/-- The zero value of `ChatCompletionRequest`, what a fresh variable holds. -/
def zeroRequest : ChatCompletionRequest := ⟨[], .nil, ⟨false, 0, 0⟩, 0⟩

/-- The round trip of the request built from two prompts: it is serialised,
and the body deserialised into a fresh request gives, without error, exactly
two messages with roles "system" and "user" and the two prompts as contents,
temperature 0.2 and max_tokens 800. -/
def RoundTrips (psys puser : GoString) : Prop :=
  ∃ data, Marshal (buildRequest psys puser) = .ok data
    ∧ (UnmarshalRequest data zeroRequest).2 = none
    ∧ (UnmarshalRequest data zeroRequest).1.Messages.toList
        = [⟨str "system", psys⟩, ⟨str "user", puser⟩]
    ∧ (UnmarshalRequest data zeroRequest).1.Temperature = float0_2
    ∧ (UnmarshalRequest data zeroRequest).1.MaxTokens = 800

/-- The scanner run over a stretch of input: the tokens completed and the
state reached. -/
def lexRun : Lex → GoString → Option (List Token × Lex)
  | st, [] => some ([], st)
  | st, c :: cs =>
    match step st c with
    | none => none
    | some r => (lexRun r.2 cs).map (fun q => (r.1 ++ q.1, q.2))

/-- The parse stack run over a stretch of tokens: the stack and phase reached. -/
def parseRun : List Frame → Phase → List Token → Option (List Frame × Phase)
  | stack, ph, [] => some (stack, ph)
  | stack, ph, t :: ts =>
    match parseStep stack ph t with
    | none => none
    | some r => parseRun r.1 r.2 ts

/-- The serialised request up to the opening quote of the system prompt. -/
def requestHead : GoString :=
  str ("\x7b\"model\":\"deepseek-chat\",\"messages\":[\x7b\"role\":\"system\","
    ++ "\"content\":\"")

/-- The serialised request between the closing quote of the system prompt and
the opening quote of the user prompt. -/
def requestMid : GoString := str "\x7d,\x7b\"role\":\"user\",\"content\":\""

/-- The serialised request after the closing quote of the user prompt. -/
def requestTail : GoString := str "\x7d],\"temperature\":0.2,\"max_tokens\":800\x7d"

/-- The tokens of `requestHead`. -/
def headTokens : List Token :=
  [.beginObject, .string (str "model"), .colon, .string (str "deepseek-chat"), .comma,
    .string (str "messages"), .colon, .beginArray, .beginObject, .string (str "role"), .colon,
    .string (str "system"), .comma, .string (str "content"), .colon]

/-- The tokens of `requestMid`. -/
def midTokens : List Token :=
  [.endObject, .comma, .beginObject, .string (str "role"), .colon, .string (str "user"),
    .comma, .string (str "content"), .colon]

/-- The tokens of `requestTail`. -/
def tailTokens : List Token :=
  [.endObject, .endArray, .comma, .string (str "temperature"), .colon, .number (str "0.2"),
    .comma, .string (str "max_tokens"), .colon, .number (str "800"), .endObject]

/-- The JSON value of the serialised request built from two prompts. -/
def requestJSON (psys puser : GoString) : JSON :=
  .object [(str "model", .string (str "deepseek-chat")),
    (str "messages", .array [
      .object [(str "role", .string (str "system")), (str "content", .string psys)],
      .object [(str "role", .string (str "user")), (str "content", .string puser)]]),
    (str "temperature", .number (str "0.2")),
    (str "max_tokens", .number (str "800"))]

/-- A system prompt with a line break. -/
def samplePromptSys : GoString := str "You are a summariser.\nAnswer in one line."

/-- A user prompt with quotes, markup, a tab, accented letters and U+2028. -/
def samplePromptUser : GoString := str "héllo \"wörld\" <b>&\t\u2028 \\"

/-- A member with the given key whose value is a string. -/
def hasStringMember (key : GoString) (members : List (GoString × JSON)) : Bool :=
  members.any (fun kv => decide (kv.1 = key) && (match kv.2 with | .string _ => true | _ => false))

/-- A message as the specification words it: an object holding `role` and
`content` strings. -/
def specMessage : JSON → Bool
  | .object members =>
    hasStringMember (str "role") members && hasStringMember (str "content") members
  | _ => false

/-- A choice as the specification words it: an object holding a `message`. -/
def specChoice : JSON → Bool
  | .object members => members.any (fun kv => decide (kv.1 = str "message") && specMessage kv.2)
  | _ => false

/-- The expected shape of a response as the specification words it: an object
with a `choices` sequence of objects each holding a `message` with `role` and
`content` strings. -/
def specShape : JSON → Bool
  | .object members =>
    members.any (fun kv => decide (kv.1 = str "choices")
      && (match kv.2 with | .array elems => elems.all specChoice | _ => false))
  | _ => false

/-- A value the decoder stores into a Go string without complaint: a string or null. -/
def stringOrNull : JSON → Bool
  | .string _ => true
  | .null => true
  | _ => false

/-- A value the decoder stores into a struct without complaint: null, or an
object each of whose members is accepted under its key. -/
def fitsStruct (member : GoString → JSON → Bool) : JSON → Bool
  | .null => true
  | .object members => members.all (fun kv => member kv.1 kv.2)
  | _ => false

/-- A value the decoder stores into a slice without complaint: null, or an
array each of whose elements is accepted. -/
def fitsSlice (elem : JSON → Bool) : JSON → Bool
  | .null => true
  | .array elems => elems.all elem
  | _ => false

/-- A member of a `Message` object: under a key that selects `role` or
`content` a string or null, under any other key anything. -/
def fitsMessageMember (k : GoString) (j : JSON) : Bool :=
  match matchField [str "role", str "content"] k with
  | some 0 => stringOrNull j
  | some 1 => stringOrNull j
  | _ => true

/-- A value the decoder stores into a `Message` without complaint. -/
def fitsMessage : JSON → Bool := fitsStruct fitsMessageMember

/-- A member of a `Choice` object: under a key that selects `message` a value
that fits a `Message`, under any other key anything. -/
def fitsChoiceMember (k : GoString) (j : JSON) : Bool :=
  match matchField [str "message"] k with
  | some 0 => fitsMessage j
  | _ => true

/-- A value the decoder stores into a `Choice` without complaint. -/
def fitsChoice : JSON → Bool := fitsStruct fitsChoiceMember

/-- A member of a `ChatCompletionResponse` object: under a key that selects
`choices` null or an array of values that fit a `Choice`, under any other key
anything. -/
def fitsResponseMember (k : GoString) (j : JSON) : Bool :=
  match matchField [str "choices"] k with
  | some 0 => fitsSlice fitsChoice j
  | _ => true

/-- A value the decoder stores into a `ChatCompletionResponse` without
complaint: null, or an object whose `choices` members, if any, are null or
arrays of nulls and objects whose `message` members, if any, are null or
objects whose `role` and `content` members, if any, are strings or null. Keys
select fields by exact or case-insensitive match; members under other keys are
of any type. -/
def fitsResponse : JSON → Bool := fitsStruct fitsResponseMember

/-- A response body whose single choice is an empty object. -/
def bareChoiceBody : GoString := str "\x7b\"choices\":[\x7b\x7d]\x7d"

/-- The environment of a run whose stub answers 200 with `bareChoiceBody`. -/
def bareChoiceWorld : World :=
  stubWorld stubArgs (some (str "sk-test")) (.ok (str "Summarise."))
    (.ok ⟨200, bareChoiceBody, none⟩)

/-- A response body whose `choices` member is a string. -/
def wrongTypeBody : GoString := str "\x7b\"choices\":\"none\"\x7d"

/-- The environment of a run whose stub answers 200 with the given body. -/
def bodyWorld (body : GoString) : World :=
  stubWorld stubArgs (some (str "sk-test")) (.ok (str "Summarise.")) (.ok ⟨200, body, none⟩)

/-- The body of the request of the successful run. -/
def happyRequestBody : GoString :=
  str ("\x7b\"model\":\"deepseek-chat\",\"messages\":[\x7b\"role\":\"system\","
    ++ "\"content\":\"Summarise.\"\x7d,\x7b\"role\":\"user\",\"content\":\"Summarise.\"\x7d],"
    ++ "\"temperature\":0.2,\"max_tokens\":800\x7d")

/-! ## The request -/

theorem Marshal_buildRequest (s u : GoString) :
    ∃ data, Marshal (buildRequest s u) = .ok data := by
  unfold Marshal
  have h : ¬ ((buildRequest s u).Temperature.expo.val = 2047) := by
    show ¬ ((1020 : Fin 2048).val = 2047)
    decide
  rw [if_neg h]
  exact ⟨_, rfl⟩

/-- C2: the request built in callOpenAI has exactly two messages, the first
with role "system" and the system prompt as content, the second with role
"user" and the user prompt as content, both contents unchanged, with model
"deepseek-chat", temperature the binary64 nearest to 0.2 and max_tokens 800. -/
theorem C2_request_shape (systemPrompt userPrompt : GoString) :
    (buildRequest systemPrompt userPrompt).Messages.toList.length = 2
    ∧ (buildRequest systemPrompt userPrompt).Messages.toList
        = [⟨str "system", systemPrompt⟩, ⟨str "user", userPrompt⟩]
    ∧ ((buildRequest systemPrompt userPrompt).Messages.toList.map Message.Content)
        = [systemPrompt, userPrompt]
    ∧ (buildRequest systemPrompt userPrompt).Model = str "deepseek-chat"
    ∧ roundBinary64 false 2 10 = some (buildRequest systemPrompt userPrompt).Temperature
    ∧ ParseFloat (str "0.2") = some (buildRequest systemPrompt userPrompt).Temperature
    ∧ (buildRequest systemPrompt userPrompt).MaxTokens = 800 := by
  refine ⟨rfl, rfl, rfl, rfl, ?_, ?_, rfl⟩
  · show roundBinary64 false 2 10 = some float0_2
    decide!
  · show ParseFloat (str "0.2") = some float0_2
    decide!

/-! ## The command line and the key -/

theorem str_newline : str "\n" = [0x0A] := by decide

theorem append_newline_ne_nil (a : GoString) : a ++ str "\n" ≠ [] := by
  rw [str_newline]; simp

/-- C8: with fewer than two arguments (program name only, or none at all) the
program prints "Missing prompt file path" to the error stream and exits with
status 1, having read no file, consulted no environment variable and issued no
request. -/
theorem C8_missing_argument (w : World) (h : w.Args.length < 2) :
    (main w).Stderr = str "Missing prompt file path\n"
    ∧ (main w).ExitCode = 1 ∧ (main w).Stdout = [] ∧ (main w).Trace = [] := by
  unfold main
  rw [if_pos h]
  exact ⟨rfl, rfl, rfl, rfl⟩

/-- C8 at work: the program name alone, and no argument at all. -/
theorem C8_missing_argument_witness :
    (main (stubWorld [str "summary"] (some (str "k")) (.ok (str "p")) (.error [])) ).Stderr
        = str "Missing prompt file path\n"
    ∧ (main (stubWorld [] (some (str "k")) (.ok (str "p")) (.error []))).ExitCode = 1 :=
  ⟨(C8_missing_argument (stubWorld [str "summary"] (some (str "k")) (.ok (str "p")) (.error []))
      (by decide)).1,
    (C8_missing_argument (stubWorld [] (some (str "k")) (.ok (str "p")) (.error []))
      (by decide)).2.1⟩

theorem Getenv_empty (w : World) (key : GoString)
    (h : w.LookupEnv key = none ∨ w.LookupEnv key = some []) : Getenv w key = [] := by
  unfold Getenv
  rcases h with h | h <;> rw [h] <;> rfl

/-- C7: when OPENAI_API_KEY is unset or empty the program exits with status 1
after printing an error to the error stream, and callOpenAI is never reached:
the only calls made are the read of the prompt file and the lookup of the
variable, so neither the executable path, nor the template, nor the network is
touched; once the prompt is loaded the message is "OPENAI_API_KEY is not set". -/
theorem C7_missing_key (w : World)
    (h : w.LookupEnv (str "OPENAI_API_KEY") = none ∨ w.LookupEnv (str "OPENAI_API_KEY") = some []) :
    (main w).ExitCode = 1 ∧ (main w).Stdout = [] ∧ (main w).Stderr ≠ []
    ∧ (∀ e ∈ (main w).Trace,
        e = Event.ReadFile (w.Args.getD 1 []) ∨ e = Event.Getenv (str "OPENAI_API_KEY"))
    ∧ Event.Executable ∉ (main w).Trace
    ∧ (∀ req, Event.Do req ∉ (main w).Trace)
    ∧ (∀ name, Event.ReadFile name ∈ (main w).Trace → name = w.Args.getD 1 [])
    ∧ (∀ userPrompt, 2 ≤ w.Args.length → w.ReadFile 0 (w.Args.getD 1 []) = .ok userPrompt →
        (main w).Stderr = str "OPENAI_API_KEY is not set\n") := by
  have hk := Getenv_empty w _ h
  unfold main
  by_cases ha : w.Args.length < 2
  · rw [if_pos ha]
    refine ⟨rfl, rfl, by decide, by simp, by simp, by simp, by simp, ?_⟩
    intro _ h2; omega
  · rw [if_neg ha]
    unfold loadPrompt
    cases hr : w.ReadFile 0 (w.Args.getD 1 []) with
    | error err =>
      simp only [hr]
      refine ⟨trivial, trivial, append_newline_ne_nil _, by simp, by simp, by simp, by simp, ?_⟩
      intro u _ h3; cases h3
    | ok userPrompt =>
      simp only [hr, hk, if_true]
      refine ⟨trivial, trivial, by decide, by simp, by simp, by simp, by simp, ?_⟩
      intro _ _ _; trivial

/-- C7 at work: the key unset, and the key set to the empty string. -/
theorem C7_missing_key_witness :
    (main (stubWorld stubArgs none (.ok (str "Summarise.")) (.error []))).ExitCode = 1
    ∧ (main (stubWorld stubArgs (some []) (.ok (str "Summarise.")) (.error []))).Stderr
        = str "OPENAI_API_KEY is not set\n" :=
  ⟨(C7_missing_key (stubWorld stubArgs none (.ok (str "Summarise.")) (.error []))
      (Or.inl (by decide!))).1,
    (C7_missing_key (stubWorld stubArgs (some []) (.ok (str "Summarise.")) (.error []))
      (Or.inr (by decide!))).2.2.2.2.2.2.2 (str "Summarise.") (by decide) rfl⟩

/-! ## The request cycle -/

theorem loadSystemPrompt_ok (w : World) (exe sys : GoString)
    (hexe : w.Executable = .ok exe) (hsys : w.ReadFile 1 (templatePath w exe) = .ok sys) :
    loadSystemPrompt w = (.ok sys, [.Executable, .ReadFile (templatePath w exe)]) := by
  unfold loadSystemPrompt
  simp only [hexe]
  unfold templatePath at hsys
  simp only [hsys, templatePath]

/-- The run of callOpenAI once the template is read and the client has answered. -/
theorem callOpenAI_answered (w : World) (userPrompt apiKey exe sys data : GoString) (resp : Response)
    (hexe : w.Executable = .ok exe) (hsys : w.ReadFile 1 (templatePath w exe) = .ok sys)
    (hdata : Marshal (buildRequest sys userPrompt) = .ok data)
    (hdo : w.Do (newChatRequest data apiKey) = .ok resp) :
    callOpenAI w userPrompt apiKey =
      ((if resp.StatusCode ≠ 200 then
          .error (str "API request failed with status " ++ formatInt resp.StatusCode
            ++ str ": " ++ resp.Body)
        else
          match resp.ReadErr with
          | some err => .error (str "failed to read response: " ++ err)
          | none =>
            match (UnmarshalResponse resp.Body ⟨.nil⟩).2 with
            | some err => .error (str "failed to unmarshal response: " ++ w.jsonErrorText err)
            | none =>
              match (UnmarshalResponse resp.Body ⟨.nil⟩).1.Choices.toList with
              | [] => .error (str "no choices in response")
              | choice :: _ => .ok choice.Message.Content),
        [.Executable, .ReadFile (templatePath w exe), .Do (newChatRequest data apiKey)]) := by
  have hreq : setHeaders ⟨str "POST", str "https://api.deepseek.com/v1/chat/completions", [],
      data⟩ apiKey = newChatRequest data apiKey := rfl
  unfold callOpenAI
  rw [loadSystemPrompt_ok w exe sys hexe hsys]
  simp only [hdata, NewRequest, hreq, hdo]
  by_cases hs : resp.StatusCode = 200
  · simp only [hs, ne_eq, not_true_eq_false, if_false]
    cases resp.ReadErr with
    | some err => rfl
    | none =>
      simp only
      cases (UnmarshalResponse resp.Body ⟨.nil⟩).2 with
      | some err => rfl
      | none =>
        simp only
        cases (UnmarshalResponse resp.Body ⟨.nil⟩).1.Choices.toList with
        | nil => rfl
        | cons c cs => rfl
  · simp [hs]

theorem main_with_key (w : World) (prog path userPrompt apiKey : GoString) (more : List GoString)
    (hargs : w.Args = prog :: path :: more) (hprompt : w.ReadFile 0 path = .ok userPrompt)
    (hkey : w.LookupEnv (str "OPENAI_API_KEY") = some apiKey) (hne : apiKey ≠ []) :
    main w =
      match callOpenAI w userPrompt apiKey with
      | (.error err, t2) =>
        ⟨[], str "Error: " ++ err ++ str "\n", 1,
          [.ReadFile path] ++ [.Getenv (str "OPENAI_API_KEY")] ++ t2⟩
      | (.ok result, t2) =>
        ⟨result, [], 0, [.ReadFile path] ++ [.Getenv (str "OPENAI_API_KEY")] ++ t2⟩ := by
  unfold main
  have hlen : ¬ (w.Args.length < 2) := by rw [hargs]; simp
  have hget : w.Args.getD 1 [] = path := by rw [hargs]; rfl
  have hgetenv : Getenv w (str "OPENAI_API_KEY") = apiKey := by
    unfold Getenv; rw [hkey]; rfl
  rw [if_neg hlen]
  simp only [hget, loadPrompt, hprompt, hgetenv, if_neg hne]

/-- C1: when the response has status 200 and its body decodes to a
ChatCompletionResponse with at least one choice, callOpenAI returns, without
error, exactly the Content of the first choice's message whatever the later
choices are, and main writes exactly that string to standard output, nothing
added or removed, writes nothing to the error stream and exits with status 0. -/
theorem C1_first_choice_content (w : World) (userPrompt apiKey exe sys : GoString)
    (resp : Response) (first : Choice) (later : List Choice)
    (hexe : w.Executable = .ok exe) (hsys : w.ReadFile 1 (templatePath w exe) = .ok sys)
    (hdo : ∀ data, Marshal (buildRequest sys userPrompt) = .ok data →
      w.Do (newChatRequest data apiKey) = .ok resp)
    (hstatus : resp.StatusCode = 200) (hread : resp.ReadErr = none)
    (hdec : (UnmarshalResponse resp.Body ⟨.nil⟩).2 = none)
    (hch : (UnmarshalResponse resp.Body ⟨.nil⟩).1.Choices.toList = first :: later) :
    (callOpenAI w userPrompt apiKey).1 = .ok first.Message.Content
    ∧ (∀ (prog path : GoString) (more : List GoString), w.Args = prog :: path :: more →
        w.ReadFile 0 path = .ok userPrompt →
        w.LookupEnv (str "OPENAI_API_KEY") = some apiKey → apiKey ≠ [] →
        (main w).Stdout = first.Message.Content ∧ (main w).ExitCode = 0
          ∧ (main w).Stderr = []) := by
  obtain ⟨data, hdata⟩ := Marshal_buildRequest sys userPrompt
  have hcall := callOpenAI_answered w userPrompt apiKey exe sys data resp hexe hsys hdata
    (hdo data hdata)
  simp only [hstatus, hread, hdec, hch, ne_eq, not_true_eq_false, if_false] at hcall
  refine ⟨by rw [hcall], ?_⟩
  intro prog path more hargs hprompt hkey hne
  rw [main_with_key w prog path userPrompt apiKey more hargs hprompt hkey hne, hcall]
  exact ⟨rfl, rfl, rfl⟩

/-- C1 at work: a stub that answers 200 with two choices. -/
theorem C1_first_choice_content_witness :
    (callOpenAI happyWorld (str "Summarise.") (str "sk-test")).1 = .ok (str " hi\n")
    ∧ (main happyWorld).Stdout = str " hi\n" ∧ (main happyWorld).ExitCode = 0
    ∧ (main happyWorld).Stderr = [] := by
  have h := C1_first_choice_content happyWorld (str "Summarise.") (str "sk-test")
    (str "/opt/coztrail/summary") (str "Summarise.")
    ⟨200, twoChoicesBody, none⟩ ⟨⟨str "assistant", str " hi\n"⟩⟩
    [⟨⟨str "assistant", str "later"⟩⟩]
    rfl rfl (fun _ _ => rfl) rfl rfl (by decide!) (by decide!)
  exact ⟨h.1, h.2 (str "summary") (str "prompt.txt") [] rfl rfl (by decide!) (by decide)⟩

/-- C4: when the response has a status code other than 200, whatever its body
(a well-formed single-choice body included), callOpenAI returns an error and no
content; the message is "API request failed with status", the decimal status
code and the bytes read from the body, so it contains both (for status 500 the
code is written "500"); main prints the error and exits with status 1. -/
theorem C4_non_200_status (w : World) (userPrompt apiKey exe sys : GoString) (resp : Response)
    (hexe : w.Executable = .ok exe) (hsys : w.ReadFile 1 (templatePath w exe) = .ok sys)
    (hdo : ∀ data, Marshal (buildRequest sys userPrompt) = .ok data →
      w.Do (newChatRequest data apiKey) = .ok resp)
    (hstatus : resp.StatusCode ≠ 200) :
    (callOpenAI w userPrompt apiKey).1
        = .error (str "API request failed with status " ++ formatInt resp.StatusCode
            ++ str ": " ++ resp.Body)
    ∧ formatInt resp.StatusCode <:+: (str "API request failed with status "
        ++ formatInt resp.StatusCode ++ str ": " ++ resp.Body)
    ∧ resp.Body <:+: (str "API request failed with status "
        ++ formatInt resp.StatusCode ++ str ": " ++ resp.Body)
    ∧ (resp.StatusCode = 500 → formatInt resp.StatusCode = str "500")
    ∧ (∀ (prog path : GoString) (more : List GoString), w.Args = prog :: path :: more →
        w.ReadFile 0 path = .ok userPrompt →
        w.LookupEnv (str "OPENAI_API_KEY") = some apiKey → apiKey ≠ [] →
        (main w).ExitCode = 1 ∧ (main w).Stdout = []
          ∧ (main w).Stderr = str "Error: " ++ (str "API request failed with status "
              ++ formatInt resp.StatusCode ++ str ": " ++ resp.Body) ++ str "\n") := by
  obtain ⟨data, hdata⟩ := Marshal_buildRequest sys userPrompt
  have hcall := callOpenAI_answered w userPrompt apiKey exe sys data resp hexe hsys hdata
    (hdo data hdata)
  simp only [hstatus, ne_eq, not_false_eq_true, if_true] at hcall
  refine ⟨by rw [hcall], ?_, ?_, ?_, ?_⟩
  · exact ⟨str "API request failed with status ", str ": " ++ resp.Body, by simp⟩
  · exact ⟨str "API request failed with status " ++ formatInt resp.StatusCode ++ str ": ", [],
      by simp⟩
  · intro h; rw [h]; decide
  · intro prog path more hargs hprompt hkey hne
    rw [main_with_key w prog path userPrompt apiKey more hargs hprompt hkey hne, hcall]
    exact ⟨rfl, rfl, rfl⟩

/-- C4 at work: a stub that answers 500 with a well-formed body. -/
theorem C4_non_200_status_witness :
    (callOpenAI failingWorld (str "Summarise.") (str "sk-test")).1
        = .error (str "API request failed with status 500: " ++ twoChoicesBody)
    ∧ (main failingWorld).ExitCode = 1 ∧ (main failingWorld).Stdout = [] := by
  have h := C4_non_200_status failingWorld (str "Summarise.") (str "sk-test")
    (str "/opt/coztrail/summary") (str "Summarise.") ⟨500, twoChoicesBody, none⟩
    rfl rfl (fun _ _ => rfl) (by decide)
  have h2 := h.2.2.2.2 (str "summary") (str "prompt.txt") [] rfl rfl (by decide!) (by decide)
  refine ⟨?_, h2.1, h2.2.1⟩
  rw [h.1]
  refine congrArg Except.error ?_
  decide!

/-- C5: when the response has status 200 and its body decodes to a response
whose choices are empty, callOpenAI returns the error "no choices in response"
and no content, and main prints it and exits with status 1. -/
theorem C5_no_choices (w : World) (userPrompt apiKey exe sys : GoString) (resp : Response)
    (hexe : w.Executable = .ok exe) (hsys : w.ReadFile 1 (templatePath w exe) = .ok sys)
    (hdo : ∀ data, Marshal (buildRequest sys userPrompt) = .ok data →
      w.Do (newChatRequest data apiKey) = .ok resp)
    (hstatus : resp.StatusCode = 200) (hread : resp.ReadErr = none)
    (hdec : (UnmarshalResponse resp.Body ⟨.nil⟩).2 = none)
    (hch : (UnmarshalResponse resp.Body ⟨.nil⟩).1.Choices.toList = []) :
    (callOpenAI w userPrompt apiKey).1 = .error (str "no choices in response")
    ∧ (∀ (prog path : GoString) (more : List GoString), w.Args = prog :: path :: more →
        w.ReadFile 0 path = .ok userPrompt →
        w.LookupEnv (str "OPENAI_API_KEY") = some apiKey → apiKey ≠ [] →
        (main w).ExitCode = 1 ∧ (main w).Stdout = []
          ∧ (main w).Stderr = str "Error: no choices in response\n") := by
  obtain ⟨data, hdata⟩ := Marshal_buildRequest sys userPrompt
  have hcall := callOpenAI_answered w userPrompt apiKey exe sys data resp hexe hsys hdata
    (hdo data hdata)
  simp only [hstatus, hread, hdec, hch, ne_eq, not_true_eq_false, if_false] at hcall
  refine ⟨by rw [hcall], ?_⟩
  intro prog path more hargs hprompt hkey hne
  rw [main_with_key w prog path userPrompt apiKey more hargs hprompt hkey hne, hcall]
  refine ⟨rfl, rfl, ?_⟩
  show str "Error: " ++ str "no choices in response" ++ str "\n" = _
  decide

/-- C5 at work: a stub that answers 200 with an empty `choices` array. -/
theorem C5_no_choices_witness :
    (callOpenAI emptyWorld (str "Summarise.") (str "sk-test")).1
        = .error (str "no choices in response")
    ∧ (main emptyWorld).ExitCode = 1 ∧ (main emptyWorld).Stdout = []
    ∧ (main emptyWorld).Stderr = str "Error: no choices in response\n" := by
  have h := C5_no_choices emptyWorld (str "Summarise.") (str "sk-test")
    (str "/opt/coztrail/summary") (str "Summarise.") ⟨200, str "\x7b\"choices\":[]\x7d", none⟩
    rfl rfl (fun _ _ => rfl) rfl rfl (by decide!) (by decide!)
  exact ⟨h.1, h.2 (str "summary") (str "prompt.txt") [] rfl rfl (by decide!) (by decide)⟩

/-- The four ways a run of main can go, by the step it stops at. -/
theorem main_cases (w : World) :
    (w.Args.length < 2 ∧ main w = ⟨[], str "Missing prompt file path\n", 1, []⟩)
    ∨ (∃ err, (2 ≤ w.Args.length ∧ w.ReadFile 0 (w.Args.getD 1 []) = .error err)
      ∧ main w = ⟨[], str "Error loading prompt: " ++ err ++ str "\n", 1,
          [.ReadFile (w.Args.getD 1 [])]⟩)
    ∨ ((2 ≤ w.Args.length ∧ (∃ u, w.ReadFile 0 (w.Args.getD 1 []) = .ok u)
        ∧ Getenv w (str "OPENAI_API_KEY") = [])
      ∧ main w = ⟨[], str "OPENAI_API_KEY is not set\n", 1,
          [.ReadFile (w.Args.getD 1 []), .Getenv (str "OPENAI_API_KEY")]⟩)
    ∨ (∃ userPrompt, (2 ≤ w.Args.length ∧ w.ReadFile 0 (w.Args.getD 1 []) = .ok userPrompt
        ∧ Getenv w (str "OPENAI_API_KEY") ≠ [])
      ∧ main w =
        match callOpenAI w userPrompt (Getenv w (str "OPENAI_API_KEY")) with
        | (.error err, t2) =>
          ⟨[], str "Error: " ++ err ++ str "\n", 1,
            [.ReadFile (w.Args.getD 1 [])] ++ [.Getenv (str "OPENAI_API_KEY")] ++ t2⟩
        | (.ok result, t2) =>
          ⟨result, [], 0,
            [.ReadFile (w.Args.getD 1 [])] ++ [.Getenv (str "OPENAI_API_KEY")] ++ t2⟩) := by
  unfold main
  by_cases ha : w.Args.length < 2
  · rw [if_pos ha]; exact Or.inl ⟨ha, rfl⟩
  · rw [if_neg ha]
    have ha2 : 2 ≤ w.Args.length := by omega
    unfold loadPrompt
    cases hr : w.ReadFile 0 (w.Args.getD 1 []) with
    | error err =>
      refine Or.inr (Or.inl ⟨err, ⟨ha2, rfl⟩, ?_⟩)
      simp only [hr]
    | ok userPrompt =>
      by_cases hk : Getenv w (str "OPENAI_API_KEY") = []
      · refine Or.inr (Or.inr (Or.inl ⟨⟨ha2, ⟨userPrompt, rfl⟩, hk⟩, ?_⟩))
        simp only [hr, hk, if_true]
        rfl
      · refine Or.inr (Or.inr (Or.inr ⟨userPrompt, ⟨ha2, rfl, hk⟩, ?_⟩))
        simp only [hr, if_neg hk]

/-- The four ways a call of callOpenAI can go, by the step it stops at. -/
theorem callOpenAI_cases (w : World) (userPrompt apiKey : GoString) :
    (∃ err, w.Executable = .error err
      ∧ callOpenAI w userPrompt apiKey
        = (.error (str "failed to load system prompt: " ++ err), [.Executable]))
    ∨ (∃ exe err, w.Executable = .ok exe ∧ w.ReadFile 1 (templatePath w exe) = .error err
      ∧ callOpenAI w userPrompt apiKey
        = (.error (str "failed to load system prompt: " ++ err),
            [.Executable, .ReadFile (templatePath w exe)]))
    ∨ (∃ exe sys data err, w.Executable = .ok exe ∧ w.ReadFile 1 (templatePath w exe) = .ok sys
      ∧ Marshal (buildRequest sys userPrompt) = .ok data
      ∧ w.Do (newChatRequest data apiKey) = .error err
      ∧ callOpenAI w userPrompt apiKey
        = (.error (str "failed to send request: " ++ err),
            [.Executable, .ReadFile (templatePath w exe), .Do (newChatRequest data apiKey)]))
    ∨ (∃ exe sys data resp, w.Executable = .ok exe ∧ w.ReadFile 1 (templatePath w exe) = .ok sys
      ∧ Marshal (buildRequest sys userPrompt) = .ok data
      ∧ w.Do (newChatRequest data apiKey) = .ok resp
      ∧ (callOpenAI w userPrompt apiKey).2
        = [.Executable, .ReadFile (templatePath w exe), .Do (newChatRequest data apiKey)]) := by
  cases hexe : w.Executable with
  | error err =>
    refine Or.inl ⟨err, rfl, ?_⟩
    unfold callOpenAI loadSystemPrompt
    simp only [hexe]
  | ok exe =>
    cases hsys : w.ReadFile 1 (templatePath w exe) with
    | error err =>
      refine Or.inr (Or.inl ⟨exe, err, rfl, hsys, ?_⟩)
      unfold callOpenAI loadSystemPrompt
      unfold templatePath at hsys
      simp only [hexe, hsys, templatePath]
    | ok sys =>
      obtain ⟨data, hdata⟩ := Marshal_buildRequest sys userPrompt
      cases hdo : w.Do (newChatRequest data apiKey) with
      | error err =>
        refine Or.inr (Or.inr (Or.inl ⟨exe, sys, data, err, rfl, hsys, hdata, hdo, ?_⟩))
        have hreq : setHeaders ⟨str "POST", str "https://api.deepseek.com/v1/chat/completions",
            [], data⟩ apiKey = newChatRequest data apiKey := rfl
        unfold callOpenAI
        rw [loadSystemPrompt_ok w exe sys hexe hsys]
        simp only [hdata, NewRequest, hreq, hdo]
        rfl
      | ok resp =>
        refine Or.inr (Or.inr (Or.inr ⟨exe, sys, data, resp, rfl, hsys, hdata, hdo, ?_⟩))
        rw [callOpenAI_answered w userPrompt apiKey exe sys data resp hexe hsys hdata hdo]

theorem newChatRequest_fields (data apiKey : GoString) :
    (newChatRequest data apiKey).Method = str "POST"
    ∧ (newChatRequest data apiKey).URL = str "https://api.deepseek.com/v1/chat/completions"
    ∧ (newChatRequest data apiKey).Header
        = [(str "Content-Type", str "application/json"),
            (str "Authorization", str "Bearer " ++ apiKey)]
    ∧ (newChatRequest data apiKey).Body = data := by
  refine ⟨rfl, rfl, ?_, rfl⟩
  show HeaderSet (HeaderSet [] (str "Content-Type") (str "application/json"))
    (str "Authorization") (str "Bearer " ++ apiKey) = _
  have h : (str "Content-Type" ≠ str "Authorization") := by decide
  simp [HeaderSet, h]

theorem callOpenAI_do_count (w : World) (userPrompt apiKey : GoString) :
    ((callOpenAI w userPrompt apiKey).2.filter Event.isDo).length ≤ 1 := by
  rcases callOpenAI_cases w userPrompt apiKey with
    ⟨err, _, h⟩ | ⟨exe, err, _, _, h⟩ | ⟨exe, sys, data, err, _, _, _, _, h⟩
    | ⟨exe, sys, data, resp, _, _, _, _, h⟩ <;> rw [h] <;> simp [Event.isDo]

theorem clientLoop_sent (w : World) (ireq : Request) (allowed : Nat) :
    ∀ (sent : List Request) (req : Request),
      ∃ more, (clientLoop w ireq allowed sent req).2 = sent ++ req :: more
        ∧ more.length ≤ allowed := by
  induction allowed with
  | zero =>
    intro sent req
    refine ⟨[], ?_, by simp⟩
    unfold clientLoop
    cases clientStep w ireq sent req <;> simp
  | succ n ih =>
    intro sent req
    unfold clientLoop
    cases hstep : clientStep w ireq sent req with
    | done result => exact ⟨[], by simp, by simp⟩
    | follow next =>
      obtain ⟨more, h, hl⟩ := ih (sent ++ [req]) next
      refine ⟨next :: more, ?_, by simp; omega⟩
      simp only [h]
      simp

theorem clientLoop_done (w : World) (ireq : Request) (allowed : Nat) (sent : List Request)
    (req : Request) (result : Except GoString Response)
    (h : clientStep w ireq sent req = .done result) :
    clientLoop w ireq allowed sent req = (result, sent ++ [req]) := by
  cases allowed <;> unfold clientLoop <;> simp only [h]

theorem redirectBehavior_none (m : GoString) (status : Int)
    (h : status ∉ [301, 302, 303, 307, 308]) : redirectBehavior m status = none := by
  simp at h
  unfold redirectBehavior
  simp [h]

theorem clientStep_done (w : World) (ireq : Request) (sent : List Request) (req : Request)
    (h : ∀ reply, w.RoundTrip sent.length req = .ok reply →
      reply.Response.StatusCode ∉ [301, 302, 303, 307, 308] ∨ reply.Location = []) :
    ∃ result, clientStep w ireq sent req = .done result := by
  unfold clientStep
  cases hr : w.RoundTrip sent.length req with
  | error err => exact ⟨_, rfl⟩
  | ok reply =>
    refine ⟨.ok reply.Response, ?_⟩
    cases hb : redirectBehavior req.Method reply.Response.StatusCode with
    | none => simp only [hb]
    | some next =>
      rcases h reply hr with hs | hl
      · rw [redirectBehavior_none _ _ hs] at hb; cases hb
      · simp only [hb, hl, if_true]

theorem Sent_head (w : World) (req : Request) :
    (w.Sent req).head? = some req ∧ (w.Sent req).length ≤ 10 := by
  obtain ⟨more, h, hl⟩ := clientLoop_sent w req 9 [] req
  unfold World.Sent
  rw [h]
  simp
  omega

theorem Sent_single (w : World) (req : Request)
    (h : ∀ reply, w.RoundTrip 0 req = .ok reply →
      reply.Response.StatusCode ∉ [301, 302, 303, 307, 308] ∨ reply.Location = []) :
    w.Sent req = [req] := by
  obtain ⟨result, hd⟩ := clientStep_done w req [] req h
  unfold World.Sent
  rw [clientLoop_done w req 9 [] req result hd]
  rfl

theorem httpRequests_callOpenAI (w : World) (userPrompt apiKey : GoString) :
    httpRequests w (callOpenAI w userPrompt apiKey).2 = []
    ∨ ∃ data, httpRequests w (callOpenAI w userPrompt apiKey).2
        = w.Sent (newChatRequest data apiKey) := by
  rcases callOpenAI_cases w userPrompt apiKey with
    ⟨err, _, h⟩ | ⟨exe, err, _, _, h⟩ | ⟨exe, sys, data, err, _, _, _, _, h⟩
    | ⟨exe, sys, data, resp, _, _, _, _, h⟩
  · left; rw [h]; simp [httpRequests]
  · left; rw [h]; simp [httpRequests]
  · right; refine ⟨data, ?_⟩; rw [h]; simp [httpRequests]
  · right; refine ⟨data, ?_⟩; rw [h]; simp [httpRequests]

theorem httpRequests_main (w : World) :
    httpRequests w (main w).Trace = []
    ∨ ∃ data, httpRequests w (main w).Trace
        = w.Sent (newChatRequest data (Getenv w (str "OPENAI_API_KEY"))) := by
  rcases main_cases w with h | ⟨err, h⟩ | h | ⟨u2, h⟩
  · left; rw [h.2]; simp [httpRequests]
  · left; rw [h.2]; simp [httpRequests]
  · left; rw [h.2]; simp [httpRequests]
  · have hc := httpRequests_callOpenAI w u2 (Getenv w (str "OPENAI_API_KEY"))
    rw [h.2]
    rcases hcall : callOpenAI w u2 (Getenv w (str "OPENAI_API_KEY")) with ⟨res, t2⟩
    rw [hcall] at hc
    have e : ∀ t : List Event, httpRequests w ([Event.ReadFile (w.Args.getD 1 [])]
        ++ [Event.Getenv (str "OPENAI_API_KEY")] ++ t) = httpRequests w t := by
      intro t; simp [httpRequests]
    cases res <;> simp only [e] <;> exact hc

theorem redirectBehavior_post (status : Int) (h : status ∈ [301, 302, 303, 307, 308]) :
    redirectBehavior (str "POST") status
      = some (if status ∈ [307, 308] then str "POST" else str "GET",
          decide (status ∈ [307, 308])) := by
  simp at h
  rcases h with h | h | h | h | h <;> subst h <;> decide

theorem Sent_redirect (w : World) (req : Request) (reply : Reply) (url : GoString)
    (hm : req.Method = str "POST")
    (hr : w.RoundTrip 0 req = .ok reply)
    (hs : reply.Response.StatusCode ∈ [301, 302, 303, 307, 308])
    (hl : reply.Location ≠ [])
    (hu : w.ParseLocation req.URL reply.Location = .ok url) :
    ∃ second rest, w.Sent req = req :: second :: rest
      ∧ second.URL = url
      ∧ second.Method
          = (if reply.Response.StatusCode ∈ [307, 308] then str "POST" else str "GET")
      ∧ second.Body = (if reply.Response.StatusCode ∈ [307, 308] then req.Body else []) := by
  have hstep : clientStep w req [] req
      = .follow ⟨if reply.Response.StatusCode ∈ [307, 308] then str "POST" else str "GET", url,
          w.RedirectHeader [req] url,
          if reply.Response.StatusCode ∈ [307, 308] then req.Body else []⟩ := by
    unfold clientStep
    have hr2 : w.RoundTrip ([] : List Request).length req = .ok reply := hr
    simp only [hr2, hm, redirectBehavior_post _ hs, if_neg hl, hu, List.nil_append,
      decide_eq_true_eq]
  obtain ⟨more, h, _⟩ := clientLoop_sent w req 8 [req]
    ⟨if reply.Response.StatusCode ∈ [307, 308] then str "POST" else str "GET", url,
      w.RedirectHeader [req] url,
      if reply.Response.StatusCode ∈ [307, 308] then req.Body else []⟩
  refine ⟨⟨if reply.Response.StatusCode ∈ [307, 308] then str "POST" else str "GET", url,
      w.RedirectHeader [req] url,
      if reply.Response.StatusCode ∈ [307, 308] then req.Body else []⟩, more, ?_, rfl, rfl, rfl⟩
  unfold World.Sent
  unfold clientLoop
  simp only [hstep, List.nil_append]
  exact h

/-- C10 (amended): callOpenAI calls the HTTP client at most once per invocation
and main at most once per run (no retry); every request handed to the client
uses method POST, the fixed URL, the two headers Content-Type:
application/json and Authorization: Bearer followed by the key unchanged, and
the JSON serialisation of the built request as body; it is the first HTTP
request the client sends. The client follows redirects: it sends at most ten
HTTP requests; exactly one when the first answer is an error of the
transport, has a status other than 301, 302, 303, 307, 308, or has no
Location header; and when the first answer has one of these statuses and a
Location header that resolves to a URL, a second request to that URL, with
method POST and the same body after 307 and 308, with method GET and no body
after 301, 302 and 303. -/
theorem C10_single_client_call (w : World) (userPrompt apiKey : GoString) :
    (∀ req, Event.Do req ∈ (callOpenAI w userPrompt apiKey).2 →
      req.Method = str "POST"
      ∧ req.URL = str "https://api.deepseek.com/v1/chat/completions"
      ∧ req.Header = [(str "Content-Type", str "application/json"),
          (str "Authorization", str "Bearer " ++ apiKey)]
      ∧ (∃ exe sys, w.Executable = .ok exe ∧ w.ReadFile 1 (templatePath w exe) = .ok sys
          ∧ Marshal (buildRequest sys userPrompt) = .ok req.Body)
      ∧ (w.Sent req).head? = some req
      ∧ (w.Sent req).length ≤ 10
      ∧ ((∀ reply, w.RoundTrip 0 req = .ok reply →
            reply.Response.StatusCode ∉ [301, 302, 303, 307, 308] ∨ reply.Location = []) →
          w.Sent req = [req])
      ∧ (∀ reply url, w.RoundTrip 0 req = .ok reply →
          reply.Response.StatusCode ∈ [301, 302, 303, 307, 308] → reply.Location ≠ [] →
          w.ParseLocation req.URL reply.Location = .ok url →
          ∃ second rest, w.Sent req = req :: second :: rest
            ∧ second.URL = url
            ∧ second.Method
              = (if reply.Response.StatusCode ∈ [307, 308] then str "POST" else str "GET")
            ∧ second.Body
              = (if reply.Response.StatusCode ∈ [307, 308] then req.Body else [])))
    ∧ ((callOpenAI w userPrompt apiKey).2.filter Event.isDo).length ≤ 1
    ∧ ((main w).Trace.filter Event.isDo).length ≤ 1
    ∧ (httpRequests w (callOpenAI w userPrompt apiKey).2).length ≤ 10
    ∧ (httpRequests w (main w).Trace).length ≤ 10
    ∧ (∀ first, (httpRequests w (main w).Trace).head? = some first →
        first.Method = str "POST"
        ∧ first.URL = str "https://api.deepseek.com/v1/chat/completions"
        ∧ first.Header = [(str "Content-Type", str "application/json"),
            (str "Authorization", str "Bearer " ++ Getenv w (str "OPENAI_API_KEY"))]) := by
  refine ⟨?_, callOpenAI_do_count w userPrompt apiKey, ?_, ?_, ?_, ?_⟩
  · intro req hreq
    have hf := fun data => newChatRequest_fields data apiKey
    have key : ∃ exe sys data, w.Executable = .ok exe ∧ w.ReadFile 1 (templatePath w exe) = .ok sys
        ∧ Marshal (buildRequest sys userPrompt) = .ok data ∧ req = newChatRequest data apiKey := by
      rcases callOpenAI_cases w userPrompt apiKey with
        ⟨err, _, h⟩ | ⟨exe, err, _, _, h⟩ | ⟨exe, sys, data, err, hexe, hsys, hdata, _, h⟩
        | ⟨exe, sys, data, resp, hexe, hsys, hdata, _, h⟩
      · rw [h] at hreq; simp at hreq
      · rw [h] at hreq; simp at hreq
      · rw [h] at hreq
        simp at hreq
        exact ⟨exe, sys, data, hexe, hsys, hdata, hreq⟩
      · rw [h] at hreq
        simp at hreq
        exact ⟨exe, sys, data, hexe, hsys, hdata, hreq⟩
    obtain ⟨exe, sys, data, hexe, hsys, hdata, rfl⟩ := key
    exact ⟨(hf data).1, (hf data).2.1, (hf data).2.2.1,
      ⟨exe, sys, hexe, hsys, by rw [(hf data).2.2.2]; exact hdata⟩,
      (Sent_head w _).1, (Sent_head w _).2, Sent_single w _,
      fun reply url hr hs hl hu => Sent_redirect w _ reply url (hf data).1 hr hs hl hu⟩
  · rcases main_cases w with h | ⟨err, h⟩ | h | ⟨u2, h⟩
    · rw [h.2]; simp
    · rw [h.2]; simp [Event.isDo]
    · rw [h.2]; simp [Event.isDo]
    · have hc := callOpenAI_do_count w u2 (Getenv w (str "OPENAI_API_KEY"))
      rw [h.2]
      rcases hcall : callOpenAI w u2 (Getenv w (str "OPENAI_API_KEY")) with ⟨res, t2⟩
      rw [hcall] at hc
      cases res <;> simpa [Event.isDo] using hc
  · rcases httpRequests_callOpenAI w userPrompt apiKey with h | ⟨data, h⟩
    · rw [h]; simp
    · rw [h]; exact (Sent_head w _).2
  · rcases httpRequests_main w with h | ⟨data, h⟩
    · rw [h]; simp
    · rw [h]; exact (Sent_head w _).2
  · intro first hfirst
    rcases httpRequests_main w with h | ⟨data, h⟩
    · rw [h] at hfirst; simp at hfirst
    · rw [h, (Sent_head w _).1] at hfirst
      have hf := newChatRequest_fields data (Getenv w (str "OPENAI_API_KEY"))
      cases hfirst
      exact ⟨hf.1, hf.2.1, hf.2.2.1⟩

/-- C10 (amended) at work: the request of the successful run is the only one sent;
where the stub redirects, the second request goes to the redirect target. -/
theorem C10_single_client_call_witness :
    Event.Do (newChatRequest happyRequestBody (str "sk-test"))
        ∈ (callOpenAI happyWorld (str "Summarise.") (str "sk-test")).2
    ∧ (newChatRequest happyRequestBody (str "sk-test")).Method = str "POST"
    ∧ (newChatRequest happyRequestBody (str "sk-test")).URL
        = str "https://api.deepseek.com/v1/chat/completions"
    ∧ (newChatRequest happyRequestBody (str "sk-test")).Header
        = [(str "Content-Type", str "application/json"),
          (str "Authorization", str "Bearer " ++ str "sk-test")]
    ∧ happyWorld.Sent (newChatRequest happyRequestBody (str "sk-test"))
        = [newChatRequest happyRequestBody (str "sk-test")]
    ∧ Event.Do (newChatRequest happyRequestBody (str "sk-test"))
        ∈ (callOpenAI redirectWorld (str "Summarise.") (str "sk-test")).2
    ∧ ((redirectWorld.Sent (newChatRequest happyRequestBody (str "sk-test"))).getD 1
        (newChatRequest happyRequestBody (str "sk-test"))).URL = otherURL :=
  have hmem : Event.Do (newChatRequest happyRequestBody (str "sk-test"))
      ∈ (callOpenAI happyWorld (str "Summarise.") (str "sk-test")).2 := by decide!
  have h := (C10_single_client_call happyWorld (str "Summarise.") (str "sk-test")).1
    (newChatRequest happyRequestBody (str "sk-test")) hmem
  have hmem2 : Event.Do (newChatRequest happyRequestBody (str "sk-test"))
      ∈ (callOpenAI redirectWorld (str "Summarise.") (str "sk-test")).2 := by decide!
  have h2 := ((C10_single_client_call redirectWorld (str "Summarise.") (str "sk-test")).1
    (newChatRequest happyRequestBody (str "sk-test")) hmem2).2.2.2.2.2.2.2
    ⟨⟨307, [], none⟩, otherURL⟩ otherURL rfl (by decide) (by decide) rfl
  ⟨hmem, h.1, h.2.1, h.2.2.1, h.2.2.2.2.2.2.1 (fun reply hr => Or.inr (by
    cases hr; rfl)), hmem2, by
    obtain ⟨second, rest, hs, hu, _⟩ := h2
    rw [hs]
    exact hu⟩

/-- C10 (counterexample): the API answers the first request with status
307 and a Location header: the call of callOpenAI sends two HTTP requests,
the second one to the URL of the Location header, which is not the fixed URL;
so does the run of main, which prints the content and exits with status 0. -/
theorem C10_redirect_second_request :
    httpRequests redirectWorld (callOpenAI redirectWorld (str "Summarise.") (str "sk-test")).2
      = [newChatRequest happyRequestBody (str "sk-test"),
          ⟨str "POST", str "http://127.0.0.1:8081/v1/chat/completions",
            [(str "Content-Type", str "application/json")], happyRequestBody⟩]
    ∧ (httpRequests redirectWorld (main redirectWorld).Trace).length = 2
    ∧ (httpRequests redirectWorld (main redirectWorld).Trace).map Request.URL
      = [str "https://api.deepseek.com/v1/chat/completions",
          str "http://127.0.0.1:8081/v1/chat/completions"]
    ∧ str "http://127.0.0.1:8081/v1/chat/completions"
      ≠ str "https://api.deepseek.com/v1/chat/completions"
    ∧ (main redirectWorld).Stdout = str " hi\n"
    ∧ (main redirectWorld).ExitCode = 0 := by
  refine ⟨by decide!, by decide!, by decide!, by decide!, by decide!, by decide!⟩

/-- C9: no partial success. Every run either writes the content of the first
choice to standard output, nothing to the error stream, and exits with status
0, or writes nothing to standard output, an error to the error stream, and
exits with status 1; the first happens exactly when every step succeeded
(argument check, prompt load, key check, template load, request, status 200,
body read, parse, non-empty choices). -/
theorem C9_no_partial_success (w : World) :
    (∃ content, AllStepsSucceed w content ∧ (main w).Stdout = content
        ∧ (main w).ExitCode = 0 ∧ (main w).Stderr = [])
    ∨ ((¬ ∃ content, AllStepsSucceed w content) ∧ (main w).Stdout = []
        ∧ (main w).ExitCode = 1 ∧ (main w).Stderr ≠ []) := by
  rcases main_cases w with ⟨ha, h⟩ | ⟨err, ⟨ha, hr⟩, h⟩ | ⟨⟨ha, ⟨u, hr⟩, hk⟩, h⟩
    | ⟨userPrompt, ⟨ha, hr, hk⟩, h⟩
  · refine Or.inr ⟨?_, by rw [h], by rw [h], by rw [h]; decide⟩
    rintro ⟨c, u, k, exe, sys, data, resp, first, later, h2, _⟩
    omega
  · refine Or.inr ⟨?_, by rw [h], by rw [h], by rw [h]; exact append_newline_ne_nil _⟩
    rintro ⟨c, u, k, exe, sys, data, resp, first, later, _, h2, _⟩
    rw [hr] at h2; cases h2
  · refine Or.inr ⟨?_, by rw [h], by rw [h], by
      rw [h]; exact (by decide : str "OPENAI_API_KEY is not set\n" ≠ [])⟩
    rintro ⟨c, u, k, exe, sys, data, resp, first, later, _, _, h2, h3, _⟩
    unfold Getenv at hk
    rw [h2] at hk
    exact h3 hk
  · have hkey : w.LookupEnv (str "OPENAI_API_KEY") = some (Getenv w (str "OPENAI_API_KEY")) := by
      unfold Getenv at hk ⊢
      cases hl : w.LookupEnv (str "OPENAI_API_KEY") with
      | none => rw [hl] at hk; exact absurd rfl hk
      | some k => rfl
    rcases callOpenAI_cases w userPrompt (Getenv w (str "OPENAI_API_KEY")) with
      ⟨err, hexe, hc⟩ | ⟨exe, err, hexe, hsys, hc⟩ | ⟨exe, sys, data, err, hexe, hsys, hdata, hdo, hc⟩
      | ⟨exe, sys, data, resp, hexe, hsys, hdata, hdo, _⟩
    · rw [hc] at h
      refine Or.inr ⟨?_, by rw [h], by rw [h], by rw [h]; exact append_newline_ne_nil _⟩
      rintro ⟨c, u, k, exe, sys, data, resp, first, later, _, _, _, _, h2, _⟩
      rw [hexe] at h2; cases h2
    · rw [hc] at h
      refine Or.inr ⟨?_, by rw [h], by rw [h], by rw [h]; exact append_newline_ne_nil _⟩
      rintro ⟨c, u, k, exe2, sys, data, resp, first, later, _, _, _, _, h2, h3, _⟩
      rw [hexe] at h2; cases h2
      rw [hsys] at h3; cases h3
    · rw [hc] at h
      refine Or.inr ⟨?_, by rw [h], by rw [h], by rw [h]; exact append_newline_ne_nil _⟩
      rintro ⟨c, u, k, exe2, sys2, data2, resp, first, later, _, h1, hk2, _, h2, h3, h4, h5, _⟩
      rw [hexe] at h2; cases h2
      rw [hsys] at h3; cases h3
      rw [hr] at h1; cases h1
      rw [hkey] at hk2; cases hk2
      rw [hdata] at h4; cases h4
      rw [hdo] at h5; cases h5
    · have hc := callOpenAI_answered w userPrompt (Getenv w (str "OPENAI_API_KEY")) exe sys data
        resp hexe hsys hdata hdo
      -- what any successful run must have gone through
      have huniq : ∀ content, AllStepsSucceed w content →
          resp.StatusCode = 200 ∧ resp.ReadErr = none
          ∧ (UnmarshalResponse resp.Body ⟨.nil⟩).2 = none
          ∧ ∃ first later, (UnmarshalResponse resp.Body ⟨.nil⟩).1.Choices.toList = first :: later
            ∧ content = first.Message.Content := by
        rintro c ⟨u, k, exe2, sys2, data2, resp2, first, later, _, h1, hk2, _, h2, h3, h4, h5,
          h6, h7, h8, h9, h10⟩
        rw [hexe] at h2; cases h2
        rw [hsys] at h3; cases h3
        rw [hr] at h1; cases h1
        rw [hkey] at hk2; cases hk2
        rw [hdata] at h4; cases h4
        rw [hdo] at h5; cases h5
        exact ⟨h6, h7, h8, first, later, h9, h10⟩
      by_cases hs : resp.StatusCode = 200
      · simp only [hs, ne_eq, not_true_eq_false, if_false] at hc
        cases hre : resp.ReadErr with
        | some e =>
          simp only [hre] at hc
          rw [hc] at h
          refine Or.inr ⟨?_, by rw [h], by rw [h], by rw [h]; exact append_newline_ne_nil _⟩
          rintro ⟨c, hall⟩
          have := (huniq c hall).2.1
          rw [hre] at this; cases this
        | none =>
          simp only [hre] at hc
          cases hde : (UnmarshalResponse resp.Body ⟨.nil⟩).2 with
          | some e =>
            simp only [hde] at hc
            rw [hc] at h
            refine Or.inr ⟨?_, by rw [h], by rw [h], by rw [h]; exact append_newline_ne_nil _⟩
            rintro ⟨c, hall⟩
            have := (huniq c hall).2.2.1
            rw [hde] at this; cases this
          | none =>
            simp only [hde] at hc
            cases hch : (UnmarshalResponse resp.Body ⟨.nil⟩).1.Choices.toList with
            | nil =>
              simp only [hch] at hc
              rw [hc] at h
              refine Or.inr ⟨?_, by rw [h], by rw [h], by rw [h]; exact append_newline_ne_nil _⟩
              rintro ⟨c, hall⟩
              obtain ⟨first, later, h9, _⟩ := (huniq c hall).2.2.2
              rw [hch] at h9; cases h9
            | cons first later =>
              simp only [hch] at hc
              rw [hc] at h
              refine Or.inl ⟨first.Message.Content, ?_, by rw [h], by rw [h], by rw [h]⟩
              exact ⟨userPrompt, Getenv w (str "OPENAI_API_KEY"), exe, sys, data, resp, first,
                later, ha, hr, hkey, hk, hexe, hsys, hdata, hdo, hs, hre, hde, hch, rfl⟩
      · simp only [hs, ne_eq, not_false_eq_true, if_true] at hc
        rw [hc] at h
        refine Or.inr ⟨?_, by rw [h], by rw [h], by rw [h]; exact append_newline_ne_nil _⟩
        rintro ⟨c, hall⟩
        exact hs (huniq c hall).1

/-! ## The round trip of the request through JSON -/

theorem byte_val (n : Nat) (h : n < 256) : (byte n).val = n := by
  simp [byte, Nat.mod_eq_of_lt h]

theorem byte_eq (n : Nat) (b : Byte) (h : n = b.val) : byte n = b := by
  apply Fin.ext
  rw [byte_val n (by omega)]
  exact h

/-- A multi-byte rune that decodes validly: the bytes it is made of. -/
theorem DecodeRune_multi (b : Byte) (rest : GoString) (hb : 0x80 ≤ b.val)
    (hv : ¬ ((DecodeRune (b :: rest)).1 = RuneError ∧ (DecodeRune (b :: rest)).2 = 1)) :
    ∃ chunk tail, b :: rest = chunk ++ tail
      ∧ chunk.length = (DecodeRune (b :: rest)).2
      ∧ 0 < chunk.length
      ∧ (∀ c ∈ chunk, 0x80 ≤ c.val)
      ∧ EncodeRune (DecodeRune (b :: rest)).1 = chunk
      ∧ (∀ tail2, DecodeRune (chunk ++ tail2) = DecodeRune (b :: rest)) := by
  have hb2 : ¬ b.val < 0x80 := by omega
  have hblt := b.isLt
  unfold DecodeRune at hv ⊢
  simp only [hb2, if_false] at hv ⊢
  by_cases hw0 : leadWidth b.val = 0
  · simp [hw0] at hv
  simp only [hw0, if_false] at hv ⊢
  cases rest with
  | nil => simp at hv
  | cons b1 rest1 =>
    have hb1lt := b1.isLt
    simp only at hv ⊢
    by_cases hacc : b1.val < acceptLo b.val ∨ acceptHi b.val < b1.val
    · simp [hacc] at hv
    simp only [hacc, if_false] at hv ⊢
    have hb1 : 0x80 ≤ b1.val ∧ b1.val ≤ 0xBF := by
      unfold acceptLo acceptHi at hacc
      split_ifs at hacc <;> omega
    by_cases hw2 : leadWidth b.val = 2
    · simp only [hw2, if_true] at hv ⊢
      refine ⟨[b, b1], rest1, rfl, rfl, by simp, ?_, ?_, ?_⟩
      · intro c hc; simp at hc; rcases hc with rfl | rfl <;> omega
      · have hr : 0xC2 ≤ b.val ∧ b.val ≤ 0xDF := by
          unfold leadWidth at hw2; split_ifs at hw2 <;> omega
        unfold EncodeRune
        rw [if_neg (by omega), if_pos (by omega)]
        congr 1
        · exact byte_eq _ _ (by omega)
        · congr 1; exact byte_eq _ _ (by omega)
      · intro tail2
        simp [hb, hb2, hw0, hacc, hw2]
    simp only [hw2, if_false] at hv ⊢
    cases rest1 with
    | nil => simp at hv
    | cons b2 rest2 =>
      have hb2lt := b2.isLt
      simp only at hv ⊢
      by_cases hc2 : isCont b2.val = true
      swap
      · simp [hc2] at hv
      simp only [hc2, not_true_eq_false, if_false] at hv ⊢
      have hb2r : 0x80 ≤ b2.val ∧ b2.val ≤ 0xBF := by
        simpa [isCont] using hc2
      by_cases hw3 : leadWidth b.val = 3
      · simp only [hw3, if_true] at hv ⊢
        refine ⟨[b, b1, b2], rest2, rfl, rfl, by simp, ?_, ?_, ?_⟩
        · intro c hc; simp at hc; rcases hc with rfl | rfl | rfl <;> omega
        · have hr : 0xE0 ≤ b.val ∧ b.val ≤ 0xEF := by
            unfold leadWidth at hw3; split_ifs at hw3 <;> omega
          have ha : (b.val = 0xE0 → 0xA0 ≤ b1.val) ∧ (b.val = 0xED → b1.val ≤ 0x9F) := by
            unfold acceptLo acceptHi at hacc
            constructor <;> intro h <;> simp [h] at hacc <;> omega
          unfold EncodeRune
          rw [if_neg (by omega), if_neg (by omega), if_neg (by omega), if_pos (by omega)]
          congr 1
          · exact byte_eq _ _ (by omega)
          · congr 1
            · exact byte_eq _ _ (by omega)
            · congr 1; exact byte_eq _ _ (by omega)
        · intro tail2
          simp [hb, hb2, hw0, hacc, hw2, hw3, hc2]
      simp only [hw3, if_false] at hv ⊢
      cases rest2 with
      | nil => simp at hv
      | cons b3 rest3 =>
        have hb3lt := b3.isLt
        simp only at hv ⊢
        by_cases hc3 : isCont b3.val = true
        swap
        · simp [hc3] at hv
        simp only [hc3, not_true_eq_false, if_false] at hv ⊢
        have hb3r : 0x80 ≤ b3.val ∧ b3.val ≤ 0xBF := by
          simpa [isCont] using hc3
        refine ⟨[b, b1, b2, b3], rest3, rfl, rfl, by simp, ?_, ?_, ?_⟩
        · intro c hc; simp at hc; rcases hc with rfl | rfl | rfl | rfl <;> omega
        · have hr : 0xF0 ≤ b.val ∧ b.val ≤ 0xF4 := by
            unfold leadWidth at hw0 hw2 hw3; split_ifs at hw0 hw2 hw3 <;> omega
          have ha : (b.val = 0xF0 → 0x90 ≤ b1.val) ∧ (b.val = 0xF4 → b1.val ≤ 0x8F) := by
            unfold acceptLo acceptHi at hacc
            constructor <;> intro h <;> simp [h] at hacc <;> omega
          unfold EncodeRune
          rw [if_neg (by omega), if_neg (by omega), if_neg (by omega), if_neg (by omega)]
          congr 1
          · exact byte_eq _ _ (by omega)
          · congr 1
            · exact byte_eq _ _ (by omega)
            · congr 1
              · exact byte_eq _ _ (by omega)
              · congr 1; exact byte_eq _ _ (by omega)
        · intro tail2
          simp [hb, hb2, hw0, hacc, hw2, hw3, hc2, hc3]

/-- A multi-byte rune that decodes validly, in terms of the bytes taken. -/
theorem DecodeRune_take (b : Byte) (rest : GoString) (hb : 0x80 ≤ b.val)
    (hv : ¬ ((DecodeRune (b :: rest)).1 = RuneError ∧ (DecodeRune (b :: rest)).2 = 1)) :
    0 < (DecodeRune (b :: rest)).2
    ∧ ((b :: rest).take (DecodeRune (b :: rest)).2).length = (DecodeRune (b :: rest)).2
    ∧ (∀ c ∈ (b :: rest).take (DecodeRune (b :: rest)).2, 0x80 ≤ c.val)
    ∧ EncodeRune (DecodeRune (b :: rest)).1 = (b :: rest).take (DecodeRune (b :: rest)).2
    ∧ (∀ tail2, DecodeRune ((b :: rest).take (DecodeRune (b :: rest)).2 ++ tail2)
        = DecodeRune (b :: rest)) := by
  obtain ⟨chunk, tail, hsplit, hlen, hpos, hall, henc, hdec⟩ := DecodeRune_multi b rest hb hv
  have htake : (b :: rest).take (DecodeRune (b :: rest)).2 = chunk := by
    rw [← hlen, hsplit]
    exact List.take_left _ _
  rw [htake]
  exact ⟨by omega, hlen, hall, henc, hdec⟩

theorem tokenize_append (a b : GoString) : ∀ st : Lex,
    tokenize st (a ++ b) =
      match lexRun st a with
      | none => none
      | some q => (tokenize q.2 b).map (fun ts => q.1 ++ ts) := by
  induction a with
  | nil => intro st; simp [lexRun]
  | cons c cs ih =>
    intro st
    show tokenize st (c :: (cs ++ b)) = _
    simp only [tokenize, lexRun]
    cases hs : step st c with
    | none => rfl
    | some r =>
      simp only []
      rw [ih]
      cases hl : lexRun r.2 cs with
      | none => rfl
      | some q =>
        simp only [Option.map_some']
        cases tokenize q.2 b <;> simp

theorem lexRun_append (a b : GoString) : ∀ st : Lex,
    lexRun st (a ++ b) =
      match lexRun st a with
      | none => none
      | some q => (lexRun q.2 b).map (fun p => (q.1 ++ p.1, p.2)) := by
  induction a with
  | nil => intro st; simp [lexRun]
  | cons c cs ih =>
    intro st
    show lexRun st (c :: (cs ++ b)) = _
    simp only [lexRun]
    cases hs : step st c with
    | none => rfl
    | some r =>
      simp only []
      rw [ih]
      cases hl : lexRun r.2 cs with
      | none => rfl
      | some q =>
        simp only [Option.map_some']
        cases lexRun q.2 b <;> simp

/-- Bytes from 0x20 on other than the quote and the backslash stay inside a string. -/
theorem lexRun_plain (chunk : GoString) : ∀ acc : GoString,
    (∀ c ∈ chunk, 0x20 ≤ c.val ∧ c ≠ 0x22 ∧ c ≠ 0x5C) →
    lexRun (.inString acc) chunk = some ([], .inString (acc ++ chunk)) := by
  induction chunk with
  | nil => intro acc _; simp [lexRun]
  | cons c cs ih =>
    intro acc h
    have hc := h c (by simp)
    have h1 : ¬ c.val < 0x20 := by omega
    simp only [lexRun, step, hc.2.1, hc.2.2, h1, if_false]
    rw [ih (acc ++ [c]) (fun x hx => h x (by simp [hx]))]
    simp

theorem isHex_hex (n : Nat) (h : n < 16) : isHex (hex n) = true := by
  have : ∀ m : Fin 16, isHex (hex m.val) = true := by decide
  exact this ⟨n, h⟩

theorem hexVal_hex (n : Nat) (h : n < 16) : hexVal (hex n) = some n := by
  have : ∀ m : Fin 16, hexVal (hex m.val) = some m.val := by decide
  exact this ⟨n, h⟩

/-- A `\uXXXX` escape stays inside a string. -/
theorem lexRun_escU (acc : GoString) (h1 h2 h3 h4 : Byte)
    (e1 : isHex h1 = true) (e2 : isHex h2 = true) (e3 : isHex h3 = true) (e4 : isHex h4 = true) :
    lexRun (.inString acc) [0x5C, 0x75, h1, h2, h3, h4]
      = some ([], .inString (acc ++ [0x5C, 0x75, h1, h2, h3, h4])) := by
  simp [lexRun, step, e1, e2, e3, e4]

/-- What `appendStringLoop` writes stays inside a string. -/
theorem lexRun_appendStringLoop : ∀ (n : Nat) (s acc : GoString),
    lexRun (.inString acc) (appendStringLoop n s)
      = some ([], .inString (acc ++ appendStringLoop n s)) := by
  intro n
  induction n with
  | zero =>
    intro s acc
    cases s <;> simp [appendStringLoop, lexRun]
  | succ n ih =>
    intro s acc
    cases s with
    | nil => simp [appendStringLoop, lexRun]
    | cons b rest =>
      -- a chunk that stays inside the string, followed by the rest of the loop
      have key : ∀ (chunk : GoString) (rest2 : GoString),
          lexRun (.inString acc) chunk = some ([], .inString (acc ++ chunk)) →
          lexRun (.inString acc) (chunk ++ appendStringLoop n rest2)
            = some ([], .inString (acc ++ (chunk ++ appendStringLoop n rest2))) := by
        intro chunk rest2 hch
        rw [lexRun_append, hch]
        simp only [ih rest2 (acc ++ chunk)]
        simp
      unfold appendStringLoop
      have hblt := b.isLt
      by_cases hb : b.val < 0x80
      · simp only [hb, if_true]
        apply key
        by_cases hs : htmlSafe b = true
        · simp only [hs, if_true]
          apply lexRun_plain
          intro c hc
          simp at hc
          subst hc
          simp [htmlSafe] at hs
          exact ⟨hs.1, hs.2.2.1, hs.2.2.2.2.2.2⟩
        · rw [if_neg hs]
          by_cases h1 : b = 0x5C ∨ b = 0x22
          · rw [if_pos h1]
            rcases h1 with h1 | h1 <;> subst h1 <;> simp [lexRun, step]
          rw [if_neg h1]
          by_cases h2 : b = 0x08
          · rw [if_pos h2]; simp [lexRun, step]
          rw [if_neg h2]
          by_cases h3 : b = 0x0C
          · rw [if_pos h3]; simp [lexRun, step]
          rw [if_neg h3]
          by_cases h4 : b = 0x0A
          · rw [if_pos h4]; simp [lexRun, step]
          rw [if_neg h4]
          by_cases h5 : b = 0x0D
          · rw [if_pos h5]; simp [lexRun, step]
          rw [if_neg h5]
          by_cases h6 : b = 0x09
          · rw [if_pos h6]; simp [lexRun, step]
          rw [if_neg h6]
          exact lexRun_escU acc 0x30 0x30 (hex (b.val / 16)) (hex (b.val % 16)) (by decide)
            (by decide) (isHex_hex _ (by omega)) (isHex_hex _ (by omega))
      · simp only [hb, if_false]
        by_cases hv : (DecodeRune (b :: rest)).1 = RuneError ∧ (DecodeRune (b :: rest)).2 = 1
        · simp only [hv, and_self, if_true]
          apply key
          exact lexRun_escU acc 0x66 0x66 0x66 0x64 (by decide) (by decide) (by decide)
            (by decide)
        · simp only [hv, if_false]
          split_ifs with h2
          · apply key
            exact lexRun_escU acc 0x32 0x30 0x32 (hex ((DecodeRune (b :: rest)).1 % 16))
              (by decide) (by decide) (by decide) (isHex_hex _ (by omega))
          · obtain ⟨_, _, hall, _, _⟩ := DecodeRune_take b rest (by omega) hv
            apply key
            apply lexRun_plain
            intro c hc
            have := hall c hc
            refine ⟨by omega, ?_, ?_⟩
            · intro h; rw [h] at this; exact absurd this (by decide)
            · intro h; rw [h] at this; exact absurd this (by decide)

theorem unquoteLoop_plain (m : Nat) (c : Byte) (X : GoString)
    (h1 : 0x20 ≤ c.val) (h2 : c ≠ 0x22) (h3 : c ≠ 0x5C) (h4 : c.val < 0x80) :
    unquoteLoop (m + 1) (c :: X) = (unquoteLoop m X).map (fun t => c :: t) := by
  have h5 : ¬ c.val < 0x20 := by omega
  rw [unquoteLoop]
  simp [unquoteStep, h2, h3, h4, h5]

theorem unquoteLoop_escU (m : Nat) (h1 h2 h3 h4 : Byte) (a b c d : Nat) (X : GoString)
    (e1 : hexVal h1 = some a) (e2 : hexVal h2 = some b) (e3 : hexVal h3 = some c)
    (e4 : hexVal h4 = some d)
    (hs : ¬ (0xD800 ≤ ((a * 16 + b) * 16 + c) * 16 + d ∧ ((a * 16 + b) * 16 + c) * 16 + d < 0xE000)) :
    unquoteLoop (m + 1) (0x5C :: 0x75 :: h1 :: h2 :: h3 :: h4 :: X)
      = (unquoteLoop m X).map (fun t => EncodeRune (((a * 16 + b) * 16 + c) * 16 + d) ++ t) := by
  rw [unquoteLoop]
  simp [unquoteStep, getu4, e1, e2, e3, e4, hs]

theorem unquoteLoop_multi (m : Nat) (c : Byte) (Y : GoString) (h : 0x80 ≤ c.val) :
    unquoteLoop (m + 1) (c :: Y)
      = (unquoteLoop m ((c :: Y).drop (DecodeRune (c :: Y)).2)).map
          (fun t => EncodeRune (DecodeRune (c :: Y)).1 ++ t) := by
  have h1 : c ≠ 0x5C := by intro e; rw [e] at h; exact absurd h (by decide)
  have h2 : c ≠ 0x22 := by intro e; rw [e] at h; exact absurd h (by decide)
  have h3 : ¬ c.val < 0x20 := by omega
  have h4 : ¬ c.val < 0x80 := by omega
  rw [unquoteLoop]
  simp [unquoteStep, h1, h2, h3, h4]

theorem unquoteLoop_esc (m : Nat) (x : Byte) (X out : GoString)
    (h : ∀ Y, unquoteStep 0x5C (x :: Y) = some (out, Y)) :
    unquoteLoop (m + 1) (0x5C :: x :: X) = (unquoteLoop m X).map (fun t => out ++ t) := by
  rw [unquoteLoop, h]

theorem drop_append_of_length (l X : GoString) (k : Nat) (h : l.length = k) :
    (l ++ X).drop k = X := by
  subst h
  exact List.drop_left _ _

theorem DecodeRune_ascii (b : Byte) (rest : GoString) (h : b.val < 0x80) :
    DecodeRune (b :: rest) = (b.val, 1) := by
  simp [DecodeRune, h]

/-- What `appendStringLoop` writes for valid UTF-8 unquotes to the string itself. -/
theorem unquoteLoop_appendStringLoop : ∀ (n : Nat) (s : GoString) (m : Nat),
    s.length ≤ n → (appendStringLoop n s).length ≤ m → validLoop n s = true →
    unquoteLoop m (appendStringLoop n s) = some s := by
  intro n
  induction n with
  | zero =>
    intro s m hlen _ _
    cases s with
    | nil => cases m <;> simp [appendStringLoop, unquoteLoop]
    | cons b rest => simp at hlen
  | succ n ih =>
    intro s m hlen hm hvalid
    cases s with
    | nil => cases m <;> simp [appendStringLoop, unquoteLoop]
    | cons b rest =>
      have hrest : rest.length ≤ n := by simpa using hlen
      have hblt := b.isLt
      unfold appendStringLoop at hm ⊢
      unfold validLoop at hvalid
      by_cases hb : b.val < 0x80
      · -- an ASCII byte
        rw [DecodeRune_ascii b rest hb] at hvalid
        have hne : ¬ (b.val = RuneError) := by
          unfold RuneError; omega
        simp [hne] at hvalid
        simp only [hb, if_true] at hm ⊢
        -- the rest of the string, once the escape of the byte is read
        have step : ∀ (m2 : Nat), (appendStringLoop n rest).length ≤ m2 →
            (unquoteLoop m2 (appendStringLoop n rest)).map (fun t => b :: t) = some (b :: rest) := by
          intro m2 h2
          rw [ih rest m2 hrest h2 hvalid]
          rfl
        by_cases hs : htmlSafe b = true
        · rw [if_pos hs] at hm ⊢
          obtain ⟨m2, rfl⟩ : ∃ m2, m = m2 + 1 := ⟨m - 1, by simp at hm; omega⟩
          simp [htmlSafe] at hs
          rw [List.singleton_append, unquoteLoop_plain m2 b _ hs.1 hs.2.2.1 hs.2.2.2.2.2.2 hb]
          exact step m2 (by simp at hm; omega)
        rw [if_neg hs] at hm ⊢
        obtain ⟨m2, rfl⟩ : ∃ m2, m = m2 + 1 := by
          refine ⟨m - 1, ?_⟩
          split_ifs at hm <;> simp at hm <;> omega
        have hm2 : (appendStringLoop n rest).length ≤ m2 := by
          split_ifs at hm <;> simp at hm <;> omega
        by_cases h1 : b = 0x5C ∨ b = 0x22
        · rw [if_pos h1, ← step m2 hm2]
          rcases h1 with h1 | h1 <;> subst h1
          · exact unquoteLoop_esc m2 0x5C _ [0x5C] (fun _ => rfl)
          · exact unquoteLoop_esc m2 0x22 _ [0x22] (fun _ => rfl)
        rw [if_neg h1]
        by_cases h2 : b = 0x08
        · rw [if_pos h2, ← step m2 hm2]; subst h2
          exact unquoteLoop_esc m2 0x62 _ [0x08] (fun _ => rfl)
        rw [if_neg h2]
        by_cases h3 : b = 0x0C
        · rw [if_pos h3, ← step m2 hm2]; subst h3
          exact unquoteLoop_esc m2 0x66 _ [0x0C] (fun _ => rfl)
        rw [if_neg h3]
        by_cases h4 : b = 0x0A
        · rw [if_pos h4, ← step m2 hm2]; subst h4
          exact unquoteLoop_esc m2 0x6E _ [0x0A] (fun _ => rfl)
        rw [if_neg h4]
        by_cases h5 : b = 0x0D
        · rw [if_pos h5, ← step m2 hm2]; subst h5
          exact unquoteLoop_esc m2 0x72 _ [0x0D] (fun _ => rfl)
        rw [if_neg h5]
        by_cases h6 : b = 0x09
        · rw [if_pos h6, ← step m2 hm2]; subst h6
          exact unquoteLoop_esc m2 0x74 _ [0x09] (fun _ => rfl)
        rw [if_neg h6]
        have e0 : hexVal (0x30 : Byte) = some 0 := by decide
        show unquoteLoop (m2 + 1)
          (0x5C :: 0x75 :: 0x30 :: 0x30 :: hex (b.val / 16) :: hex (b.val % 16)
            :: appendStringLoop n rest) = _
        rw [unquoteLoop_escU m2 0x30 0x30 (hex (b.val / 16)) (hex (b.val % 16)) 0 0
          (b.val / 16) (b.val % 16) _ e0 e0 (hexVal_hex _ (by omega)) (hexVal_hex _ (by omega))
          (by omega)]
        have hv : ((0 * 16 + 0) * 16 + b.val / 16) * 16 + b.val % 16 = b.val := by omega
        rw [hv, ← step m2 hm2]
        have he : EncodeRune b.val = [b] := by
          unfold EncodeRune
          rw [if_pos (by omega)]
          exact congrArg (fun x => [x]) (byte_eq _ _ rfl)
        rw [he]
        rfl
      · -- a multi-byte rune
        have hb8 : 0x80 ≤ b.val := by omega
        simp only [hb, if_false] at hm ⊢
        by_cases hv : (DecodeRune (b :: rest)).1 = RuneError ∧ (DecodeRune (b :: rest)).2 = 1
        · simp [hv] at hvalid
        simp only [hv, if_false] at hvalid
        rw [if_neg hv] at hm ⊢
        obtain ⟨hpos, htl, hall, henc, hdec⟩ := DecodeRune_take b rest hb8 hv
        have hdl : ((b :: rest).drop (DecodeRune (b :: rest)).2).length ≤ n := by
          simp only [List.length_drop, List.length_cons]; omega
        -- the rest of the string, once the rune is read
        have step : ∀ (m2 : Nat),
            (appendStringLoop n ((b :: rest).drop (DecodeRune (b :: rest)).2)).length ≤ m2 →
            (unquoteLoop m2 (appendStringLoop n ((b :: rest).drop (DecodeRune (b :: rest)).2))).map
              (fun t => EncodeRune (DecodeRune (b :: rest)).1 ++ t) = some (b :: rest) := by
          intro m2 h2
          rw [ih _ m2 hdl h2 hvalid, henc]
          simp
        by_cases h2 : (DecodeRune (b :: rest)).1 = 0x2028 ∨ (DecodeRune (b :: rest)).1 = 0x2029
        · rw [if_pos h2] at hm ⊢
          obtain ⟨m2, rfl⟩ : ∃ m2, m = m2 + 1 := ⟨m - 1, by simp at hm; omega⟩
          have hm2 : (appendStringLoop n ((b :: rest).drop (DecodeRune (b :: rest)).2)).length
              ≤ m2 := by simp at hm; omega
          have e0 : hexVal (0x30 : Byte) = some 0 := by decide
          have e2 : hexVal (0x32 : Byte) = some 2 := by decide
          show unquoteLoop (m2 + 1)
            (0x5C :: 0x75 :: 0x32 :: 0x30 :: 0x32 :: hex ((DecodeRune (b :: rest)).1 % 16)
              :: appendStringLoop n ((b :: rest).drop (DecodeRune (b :: rest)).2)) = _
          rw [unquoteLoop_escU m2 0x32 0x30 0x32 (hex ((DecodeRune (b :: rest)).1 % 16)) 2 0 2
            ((DecodeRune (b :: rest)).1 % 16) _ e2 e0 e2 (hexVal_hex _ (by omega)) (by omega)]
          have hval : ((2 * 16 + 0) * 16 + 2) * 16 + (DecodeRune (b :: rest)).1 % 16
              = (DecodeRune (b :: rest)).1 := by omega
          rw [hval]
          exact step m2 hm2
        · rw [if_neg h2] at hm ⊢
          -- the bytes of the rune are copied
          have htk : (b :: rest).take (DecodeRune (b :: rest)).2
              = b :: rest.take ((DecodeRune (b :: rest)).2 - 1) := by
            obtain ⟨k, hk⟩ : ∃ k, (DecodeRune (b :: rest)).2 = k + 1 :=
              ⟨(DecodeRune (b :: rest)).2 - 1, by omega⟩
            rw [hk]; simp
          have hmlen : (DecodeRune (b :: rest)).2
              + (appendStringLoop n ((b :: rest).drop (DecodeRune (b :: rest)).2)).length ≤ m := by
            rw [List.length_append, htl] at hm; exact hm
          obtain ⟨m2, rfl⟩ : ∃ m2, m = m2 + 1 := ⟨m - 1, by omega⟩
          have hd := hdec (appendStringLoop n ((b :: rest).drop (DecodeRune (b :: rest)).2))
          rw [htk, List.cons_append] at hd
          rw [htk, List.cons_append, unquoteLoop_multi m2 b _ hb8, hd]
          have hdrop := drop_append_of_length
            ((b :: rest).take (DecodeRune (b :: rest)).2)
            (appendStringLoop n ((b :: rest).drop (DecodeRune (b :: rest)).2)) _ htl
          rw [htk, List.cons_append] at hdrop
          rw [hdrop]
          exact step m2 (by omega)

theorem request_regroup (m1 m2 m3 r1 r2 c1 r3 r4 c2 t1 t2 t3 t4 Ls Lu : GoString) :
    [0x7B] ++ m1 ++ m2 ++ m3 ++ ([0x5B] ++ (([0x7B] ++ r1 ++ r2 ++ c1
        ++ ((0x22 : Byte) :: Ls ++ [0x22]) ++ [0x7D])
      ++ ([0x2C] ++ (([0x7B] ++ r3 ++ r4 ++ c2 ++ ((0x22 : Byte) :: Lu ++ [0x22]) ++ [0x7D])
        ++ []))) ++ [0x5D]) ++ t1 ++ t2 ++ t3 ++ t4 ++ [0x7D]
    = ([0x7B] ++ m1 ++ m2 ++ m3 ++ [0x5B, 0x7B] ++ r1 ++ r2 ++ c1 ++ [0x22])
      ++ (Ls ++ (0x22 :: (([0x7D, 0x2C, 0x7B] ++ r3 ++ r4 ++ c2 ++ [0x22])
        ++ (Lu ++ (0x22 :: ([0x7D, 0x5D] ++ t1 ++ t2 ++ t3 ++ t4 ++ [0x7D])))))) := by
  simp [List.append_assoc]

theorem Marshal_buildRequest_form (s u : GoString) :
    Marshal (buildRequest s u) = .ok (requestHead ++ (appendStringLoop s.length s
      ++ (0x22 :: (requestMid ++ (appendStringLoop u.length u ++ (0x22 :: requestTail)))))) := by
  have h : ¬ ((buildRequest s u).Temperature.expo.val = 2047) := by
    show ¬ ((1020 : Fin 2048).val = 2047)
    decide
  have hA : [0x7B] ++ str "\"model\":" ++ appendString (str "deepseek-chat")
      ++ str ",\"messages\":" ++ [0x5B, 0x7B] ++ str "\"role\":" ++ appendString (str "system")
      ++ str ",\"content\":" ++ [0x22] = requestHead := by decide!
  have hB : [0x7D, 0x2C, 0x7B] ++ str "\"role\":" ++ appendString (str "user")
      ++ str ",\"content\":" ++ [0x22] = requestMid := by decide!
  have hC : [0x7D, 0x5D] ++ str ",\"temperature\":" ++ formatFloat float0_2
      ++ str ",\"max_tokens\":" ++ formatInt 800 ++ [0x7D] = requestTail := by decide!
  unfold Marshal
  rw [if_neg h]
  refine congrArg Except.ok ?_
  show [0x7B] ++ str "\"model\":" ++ appendString (str "deepseek-chat")
      ++ str ",\"messages\":" ++ ([0x5B] ++ (([0x7B] ++ str "\"role\":" ++ appendString (str "system")
        ++ str ",\"content\":" ++ ((0x22 : Byte) :: appendStringLoop s.length s ++ [0x22]) ++ [0x7D])
        ++ ([0x2C] ++ (([0x7B] ++ str "\"role\":" ++ appendString (str "user")
        ++ str ",\"content\":" ++ ((0x22 : Byte) :: appendStringLoop u.length u ++ [0x22]) ++ [0x7D])
        ++ []))) ++ [0x5D])
      ++ str ",\"temperature\":" ++ formatFloat float0_2
      ++ str ",\"max_tokens\":" ++ formatInt 800 ++ [0x7D] = _
  rw [request_regroup, hA, hB, hC]

theorem lexRun_requestHead : lexRun .ready requestHead = some (headTokens, .inString []) := by
  decide!

theorem lexRun_requestMid : lexRun .ready requestMid = some (midTokens, .inString []) := by
  decide!

theorem tokenize_requestTail : tokenize .ready requestTail = some tailTokens := by
  decide!

theorem tokenize_request (s u : GoString) :
    tokenize .ready (requestHead ++ (appendStringLoop s.length s
      ++ (0x22 :: (requestMid ++ (appendStringLoop u.length u ++ (0x22 :: requestTail))))))
    = some (headTokens ++ (Token.string (appendStringLoop s.length s)
        :: (midTokens ++ (Token.string (appendStringLoop u.length u) :: tailTokens)))) := by
  rw [tokenize_append, lexRun_requestHead]
  simp only []
  rw [tokenize_append, lexRun_appendStringLoop]
  simp only [List.nil_append]
  rw [tokenize]
  simp only [step, if_true]
  rw [tokenize_append, lexRun_requestMid]
  simp only []
  rw [tokenize_append, lexRun_appendStringLoop]
  simp only [List.nil_append]
  rw [tokenize]
  simp only [step, if_true]
  rw [tokenize_requestTail]
  simp

theorem parseTokens_append (a b : List Token) : ∀ (stack : List Frame) (ph : Phase),
    parseTokens stack ph (a ++ b) =
      match parseRun stack ph a with
      | none => none
      | some r => parseTokens r.1 r.2 b := by
  induction a with
  | nil => intro stack ph; simp [parseRun]
  | cons t ts ih =>
    intro stack ph
    show parseTokens stack ph (t :: (ts ++ b)) = _
    rw [parseTokens.eq_def, parseRun]
    cases hs : parseStep stack ph t with
    | none => simp only [hs]
    | some r =>
      simp only [hs]
      rw [ih]

/-- The parse of the tokens of a serialised request whose two prompts unquote
to the given strings. -/
theorem parseTokens_request (rs ru s u : GoString)
    (hs : unquote rs = some s) (hu : unquote ru = some u) :
    parseTokens [] .beginValue
      (headTokens ++ (Token.string rs :: (midTokens ++ (Token.string ru :: tailTokens))))
    = some (requestJSON s u) := by
  rw [parseTokens_append]
  have h1 : parseRun [] .beginValue headTokens
      = some ([.object [(str "role", .string (str "system"))] (some (str "content")), .array [],
          .object [(str "model", .string (str "deepseek-chat"))] (some (str "messages"))],
          .beginValue) := by rfl
  rw [h1]
  simp only []
  rw [parseTokens]
  simp only [parseStep, beginValue, hs, complete]
  rw [parseTokens_append]
  have h2 : parseRun [.object [(str "content", .string s), (str "role", .string (str "system"))]
          none, .array [],
        .object [(str "model", .string (str "deepseek-chat"))] (some (str "messages"))]
      .endValue midTokens
      = some ([.object [(str "role", .string (str "user"))] (some (str "content")),
          .array [.object [(str "role", .string (str "system")), (str "content", .string s)]],
          .object [(str "model", .string (str "deepseek-chat"))] (some (str "messages"))],
          .beginValue) := by rfl
  rw [h2]
  simp only []
  rw [parseTokens]
  simp only [parseStep, beginValue, hu, complete]
  rfl

theorem matchField_request :
    matchField [str "model", str "messages", str "temperature", str "max_tokens"] (str "model")
      = some 0
    ∧ matchField [str "model", str "messages", str "temperature", str "max_tokens"]
      (str "messages") = some 1
    ∧ matchField [str "model", str "messages", str "temperature", str "max_tokens"]
      (str "temperature") = some 2
    ∧ matchField [str "model", str "messages", str "temperature", str "max_tokens"]
      (str "max_tokens") = some 3
    ∧ matchField [str "role", str "content"] (str "role") = some 0
    ∧ matchField [str "role", str "content"] (str "content") = some 1 := by
  decide!

theorem ParseFloat_0_2 : ParseFloat (str "0.2") = some float0_2 := by decide!

theorem ParseInt_800 : ParseInt (str "800") = some 800 := by decide!

/-- Decoding the JSON value of a serialised request into a fresh request. -/
theorem decode_requestJSON (s u : GoString) :
    decodeStruct (str "main.ChatCompletionRequest") requestField (requestJSON s u) zeroRequest
      none = (buildRequest s u, none) := by
  obtain ⟨m0, m1, m2, m3, r0, r1⟩ := matchField_request
  simp only [requestJSON, decodeStruct, decodeMembers, requestField, m0, m1, m2, m3,
    decodeString, decodeSlice, zeroRequest, decodeElems, decodeMessage, messageField, r0, r1,
    decodeFloat, ParseFloat_0_2, decodeInt, ParseInt_800, List.headD, List.tail, List.drop,
    List.nil_append, List.length]
  rfl

theorem unquote_appendStringLoop (s : GoString) (h : ValidString s = true) :
    unquote (appendStringLoop s.length s) = some s :=
  unquoteLoop_appendStringLoop s.length s _ (Nat.le_refl _) (Nat.le_refl _) h

/-- Deserialising the serialised request built from two valid UTF-8 prompts. -/
theorem UnmarshalRequest_Marshal (psys puser : GoString)
    (hs : ValidString psys = true) (hu : ValidString puser = true) :
    ∃ data, Marshal (buildRequest psys puser) = .ok data
      ∧ UnmarshalRequest data zeroRequest = (buildRequest psys puser, none) := by
  refine ⟨_, Marshal_buildRequest_form psys puser, ?_⟩
  unfold UnmarshalRequest parseJSON
  rw [tokenize_request]
  simp only []
  rw [parseTokens_request _ _ psys puser (unquote_appendStringLoop psys hs)
    (unquote_appendStringLoop puser hu)]
  exact decode_requestJSON psys puser

/-- C3 (amended): for every pair of prompt strings that are valid UTF-8,
serialising the built request with json.Marshal and deserialising the body
into a fresh ChatCompletionRequest gives, without error, exactly two messages
with roles "system" and "user" and the two prompts as contents, temperature
0.2 and max_tokens 800. -/
theorem C3_round_trip_valid_utf8 (psys puser : GoString)
    (hs : ValidString psys = true) (hu : ValidString puser = true) :
    RoundTrips psys puser := by
  obtain ⟨data, hm, hun⟩ := UnmarshalRequest_Marshal psys puser hs hu
  refine ⟨data, hm, ?_, ?_, ?_, ?_⟩ <;> rw [hun] <;> rfl

/-- C3 (amended) at work: prompts with a line break, quotes, markup, a tab, accented
letters, U+2028 and a backslash. -/
theorem C3_round_trip_valid_utf8_witness : RoundTrips samplePromptSys samplePromptUser :=
  C3_round_trip_valid_utf8 samplePromptSys samplePromptUser (by decide!) (by decide!)

/-- C3 (counterexample): the round trip does not hold for a prompt file holding
the single byte 0xFF. The string is not valid UTF-8, json.Marshal writes the
escape of U+FFFD in its place, and the content read back is the three bytes
EF BF BD. -/
theorem C3_round_trip_invalid_utf8 :
    ValidString [0xFF] = false
    ∧ (∃ data, Marshal (buildRequest [] [0xFF]) = .ok data
        ∧ (UnmarshalRequest data zeroRequest).1.Messages.toList
          = [⟨str "system", []⟩, ⟨str "user", [0xEF, 0xBF, 0xBD]⟩])
    ∧ ¬ RoundTrips [] [0xFF] := by
  have hne : (UnmarshalRequest (requestHead ++ (appendStringLoop ([] : GoString).length []
      ++ (0x22 :: (requestMid ++ (appendStringLoop ([0xFF] : GoString).length [0xFF]
        ++ (0x22 :: requestTail)))))) zeroRequest).1.Messages.toList
      = [⟨str "system", []⟩, ⟨str "user", [0xEF, 0xBF, 0xBD]⟩] := by decide!
  refine ⟨by decide!, ⟨_, Marshal_buildRequest_form [] [0xFF], hne⟩, ?_⟩
  rintro ⟨data, hm, _, hmsgs, _⟩
  rw [Marshal_buildRequest_form] at hm
  cases hm
  rw [hne] at hmsgs
  exact absurd hmsgs (by decide)

/-! ## The loops have fuel enough -/

theorem DecodeRune_size_pos (c : Byte) (rest : GoString) : 1 ≤ (DecodeRune (c :: rest)).2 := by
  by_cases hc : c.val < 0x80
  · rw [DecodeRune_ascii c rest hc]
  · by_cases hv : (DecodeRune (c :: rest)).1 = RuneError ∧ (DecodeRune (c :: rest)).2 = 1
    · rw [hv.2]
    · exact (DecodeRune_take c rest (by omega) hv).1

theorem drop_length_le (l : GoString) (k : Nat) : (l.drop k).length ≤ l.length := by
  simp

/-- A round of the unquoting loop leaves less input than it was given. -/
theorem unquoteStep_shorter (c : Byte) (rest : GoString) (r : GoString × GoString)
    (h : unquoteStep c rest = some r) : r.2.length ≤ rest.length := by
  unfold unquoteStep at h
  by_cases hc : c = 0x5C
  · rw [if_pos hc] at h
    cases rest with
    | nil => simp at h
    | cons x rest2 =>
      simp only at h
      have h4 : (rest2.drop 4).length ≤ rest2.length := by
        simp only [List.length_drop]; omega
      have h6 : ((rest2.drop 4).drop 6).length ≤ rest2.length := by
        simp only [List.length_drop]; omega
      split_ifs at h <;> try (cases h; simp)
      · split at h
        · cases h
        · split_ifs at h <;> cases h <;> first | omega | (simp; done) | (simp; omega)
  · rw [if_neg hc] at h
    have hd := DecodeRune_size_pos c rest
    split_ifs at h
    · cases h; simp
    · cases h
      simp only [List.length_drop, List.length_cons]
      omega

/-- The unquoting loop does not run out of fuel: any fuel from the length of
the input on gives the same result. -/
theorem unquoteLoop_fuel : ∀ (m n : Nat) (raw : GoString),
    raw.length ≤ m → raw.length ≤ n → unquoteLoop m raw = unquoteLoop n raw := by
  intro m
  induction m with
  | zero =>
    intro n raw hm _
    cases raw with
    | nil => cases n <;> simp [unquoteLoop]
    | cons c rest => simp at hm
  | succ m ih =>
    intro n raw hm hn
    cases raw with
    | nil => cases n <;> simp [unquoteLoop]
    | cons c rest =>
      obtain ⟨n2, rfl⟩ : ∃ n2, n = n2 + 1 := ⟨n - 1, by simp at hn; omega⟩
      simp only [List.length_cons] at hm hn
      rw [unquoteLoop, unquoteLoop]
      cases hs : unquoteStep c rest with
      | none => rfl
      | some r =>
        have hl := unquoteStep_shorter c rest r hs
        simp only []
        rw [ih n2 r.2 (by omega) (by omega)]

/-- The escaping loop does not run out of fuel. -/
theorem appendStringLoop_fuel : ∀ (m n : Nat) (s : GoString),
    s.length ≤ m → s.length ≤ n → appendStringLoop m s = appendStringLoop n s := by
  intro m
  induction m with
  | zero =>
    intro n s hm _
    cases s with
    | nil => cases n <;> simp [appendStringLoop]
    | cons c rest => simp at hm
  | succ m ih =>
    intro n s hm hn
    cases s with
    | nil => cases n <;> simp [appendStringLoop]
    | cons c rest =>
      obtain ⟨n2, rfl⟩ : ∃ n2, n = n2 + 1 := ⟨n - 1, by simp at hn; omega⟩
      simp only [List.length_cons] at hm hn
      have hd := DecodeRune_size_pos c rest
      have h1 := ih n2 rest (by omega) (by omega)
      have h2 := ih n2 ((c :: rest).drop (DecodeRune (c :: rest)).2)
        (by simp only [List.length_drop, List.length_cons]; omega)
        (by simp only [List.length_drop, List.length_cons]; omega)
      rw [appendStringLoop, appendStringLoop]
      simp only [h1, h2]

/-- The validity loop does not run out of fuel. -/
theorem validLoop_fuel : ∀ (m n : Nat) (s : GoString),
    s.length ≤ m → s.length ≤ n → validLoop m s = validLoop n s := by
  intro m
  induction m with
  | zero =>
    intro n s hm _
    cases s with
    | nil => cases n <;> simp [validLoop]
    | cons c rest => simp at hm
  | succ m ih =>
    intro n s hm hn
    cases s with
    | nil => cases n <;> simp [validLoop]
    | cons c rest =>
      obtain ⟨n2, rfl⟩ : ∃ n2, n = n2 + 1 := ⟨n - 1, by simp at hn; omega⟩
      simp only [List.length_cons] at hm hn
      have hd := DecodeRune_size_pos c rest
      have h2 := ih n2 ((c :: rest).drop (DecodeRune (c :: rest)).2)
        (by simp only [List.length_drop, List.length_cons]; omega)
        (by simp only [List.length_drop, List.length_cons]; omega)
      rw [validLoop, validLoop]
      simp only [h2]

/-- The folding loop does not run out of fuel. -/
theorem foldNameLoop_fuel : ∀ (m n : Nat) (s : GoString),
    s.length ≤ m → s.length ≤ n → foldNameLoop m s = foldNameLoop n s := by
  intro m
  induction m with
  | zero =>
    intro n s hm _
    cases s with
    | nil => cases n <;> simp [foldNameLoop]
    | cons c rest => simp at hm
  | succ m ih =>
    intro n s hm hn
    cases s with
    | nil => cases n <;> simp [foldNameLoop]
    | cons c rest =>
      obtain ⟨n2, rfl⟩ : ∃ n2, n = n2 + 1 := ⟨n - 1, by simp at hn; omega⟩
      simp only [List.length_cons] at hm hn
      have hd := DecodeRune_size_pos c rest
      have h1 := ih n2 rest (by omega) (by omega)
      have h2 := ih n2 ((c :: rest).drop (DecodeRune (c :: rest)).2)
        (by simp only [List.length_drop, List.length_cons]; omega)
        (by simp only [List.length_drop, List.length_cons]; omega)
      rw [foldNameLoop, foldNameLoop]
      simp only [h1, h2]

/-! ## What the response decoder accepts -/

theorem saveError_ne_none (e : JsonError) (err : Option JsonError) : saveError e err ≠ none := by
  cases err <;> simp [saveError]

theorem decodeString_ok (j : JSON) (cur : GoString) (err : Option JsonError) :
    (decodeString j cur err).2 = none ↔ err = none ∧ stringOrNull j = true := by
  cases j <;> simp [decodeString, stringOrNull, saveError_ne_none]

/-- The members of an object decode without error exactly when each of them does. -/
theorem decodeMembers_ok {α : Type}
    (field : GoString → JSON → α → Option JsonError → α × Option JsonError)
    (P : GoString → JSON → Bool)
    (hfield : ∀ k j v err, (field k j v err).2 = none ↔ err = none ∧ P k j = true) :
    ∀ (ms : List (GoString × JSON)) (v : α) (err : Option JsonError),
      (decodeMembers field ms v err).2 = none
        ↔ err = none ∧ ms.all (fun kv => P kv.1 kv.2) = true := by
  intro ms
  induction ms with
  | nil => intro v err; simp [decodeMembers]
  | cons kv rest ih =>
    intro v err
    obtain ⟨k, j⟩ := kv
    simp only [decodeMembers, List.all_cons, Bool.and_eq_true]
    rw [ih, hfield]
    tauto

theorem decodeStruct_ok {α : Type} (typeName : GoString)
    (field : GoString → JSON → α → Option JsonError → α × Option JsonError)
    (P : GoString → JSON → Bool)
    (hfield : ∀ k j v err, (field k j v err).2 = none ↔ err = none ∧ P k j = true)
    (j : JSON) (cur : α) (err : Option JsonError) :
    (decodeStruct typeName field j cur err).2 = none ↔ err = none ∧ fitsStruct P j = true := by
  cases j <;>
    simp [decodeStruct, fitsStruct, saveError_ne_none, decodeMembers_ok field P hfield]

theorem decodeElems_ok {α : Type} (zero : α)
    (elem : JSON → α → Option JsonError → α × Option JsonError) (Q : JSON → Bool)
    (helem : ∀ j v err, (elem j v err).2 = none ↔ err = none ∧ Q j = true) :
    ∀ (js : List JSON) (old : List α) (err : Option JsonError),
      (decodeElems zero elem js old err).2 = none ↔ err = none ∧ js.all Q = true := by
  intro js
  induction js with
  | nil => intro old err; simp [decodeElems]
  | cons j rest ih =>
    intro old err
    simp only [decodeElems, List.all_cons, Bool.and_eq_true]
    rw [ih, helem]
    tauto

theorem decodeSlice_ok {α : Type} (typeName : GoString) (zero : α)
    (elem : JSON → α → Option JsonError → α × Option JsonError) (Q : JSON → Bool)
    (helem : ∀ j v err, (elem j v err).2 = none ↔ err = none ∧ Q j = true)
    (j : JSON) (cur : Slice α) (err : Option JsonError) :
    (decodeSlice typeName zero elem j cur err).2 = none ↔ err = none ∧ fitsSlice Q j = true := by
  cases j with
  | array js =>
    cases js with
    | nil => simp [decodeSlice, fitsSlice]
    | cons e es =>
      simp only [decodeSlice, fitsSlice]
      rw [decodeElems_ok zero elem Q helem]
  | _ => simp [decodeSlice, fitsSlice, saveError_ne_none]

theorem messageField_ok (k : GoString) (j : JSON) (m : Message) (err : Option JsonError) :
    (messageField k j m err).2 = none ↔ err = none ∧ fitsMessageMember k j = true := by
  unfold messageField fitsMessageMember
  rcases matchField [str "role", str "content"] k with _ | (_ | (_ | n)) <;>
    simp [decodeString_ok]

theorem decodeMessage_ok (j : JSON) (m : Message) (err : Option JsonError) :
    (decodeMessage j m err).2 = none ↔ err = none ∧ fitsMessage j = true :=
  decodeStruct_ok _ _ _ messageField_ok j m err

theorem choiceField_ok (k : GoString) (j : JSON) (c : Choice) (err : Option JsonError) :
    (choiceField k j c err).2 = none ↔ err = none ∧ fitsChoiceMember k j = true := by
  unfold choiceField fitsChoiceMember
  rcases matchField [str "message"] k with _ | (_ | n) <;> simp [decodeMessage_ok]

theorem decodeChoice_ok (j : JSON) (c : Choice) (err : Option JsonError) :
    (decodeChoice j c err).2 = none ↔ err = none ∧ fitsChoice j = true :=
  decodeStruct_ok _ _ _ choiceField_ok j c err

theorem responseField_ok (k : GoString) (j : JSON) (r : ChatCompletionResponse)
    (err : Option JsonError) :
    (responseField k j r err).2 = none ↔ err = none ∧ fitsResponseMember k j = true := by
  unfold responseField fitsResponseMember
  rcases matchField [str "choices"] k with _ | (_ | n) <;>
    simp [decodeSlice_ok _ _ _ _ decodeChoice_ok]

/-- The decoder accepts a response body exactly when it is valid JSON whose
value fits a `ChatCompletionResponse`. -/
theorem UnmarshalResponse_ok (body : GoString) (cur : ChatCompletionResponse) :
    (UnmarshalResponse body cur).2 = none
      ↔ ∃ j, parseJSON body = some j ∧ fitsResponse j = true := by
  unfold UnmarshalResponse
  cases hp : parseJSON body with
  | none => simp
  | some j =>
    simp only []
    rw [decodeStruct_ok _ _ _ responseField_ok]
    simp [fitsResponse]

theorem unmarshal_error_iff (body : GoString) :
    (∃ err, (UnmarshalResponse body ⟨.nil⟩).2 = some err)
      ↔ (parseJSON body = none ∨ ∃ j, parseJSON body = some j ∧ fitsResponse j = false) := by
  have h := UnmarshalResponse_ok body ⟨.nil⟩
  constructor
  · rintro ⟨err, he⟩
    cases hp : parseJSON body with
    | none => exact Or.inl rfl
    | some j =>
      refine Or.inr ⟨j, rfl, ?_⟩
      cases hf : fitsResponse j with
      | false => rfl
      | true =>
        have := h.2 ⟨j, hp, hf⟩
        rw [this] at he
        cases he
  · intro hbad
    cases he : (UnmarshalResponse body ⟨.nil⟩).2 with
    | some err => exact ⟨err, rfl⟩
    | none =>
      obtain ⟨j, hp, hf⟩ := h.1 he
      rcases hbad with hn | ⟨j2, hp2, hf2⟩
      · rw [hn] at hp; cases hp
      · rw [hp2] at hp
        cases hp
        rw [hf] at hf2
        cases hf2

/-- C6 (amended): for a response with status 200 whose body was read, callOpenAI
fails with the parse error "failed to unmarshal response" exactly when the
bytes are not valid JSON, or are valid JSON in which a value at an expected
place has the wrong type: the top-level value is not an object or null, a
`choices` value is not an array or null, one of its elements is not an object
or null, a `message` value is not an object or null, or a `role` or `content`
value is not a string or null. Such a body never yields content. -/
theorem C6_parse_error (w : World) (userPrompt apiKey exe sys : GoString) (resp : Response)
    (hexe : w.Executable = .ok exe) (hsys : w.ReadFile 1 (templatePath w exe) = .ok sys)
    (hdo : ∀ data, Marshal (buildRequest sys userPrompt) = .ok data →
      w.Do (newChatRequest data apiKey) = .ok resp)
    (hstatus : resp.StatusCode = 200) (hread : resp.ReadErr = none) :
    ((parseJSON resp.Body = none ∨ ∃ j, parseJSON resp.Body = some j ∧ fitsResponse j = false)
      ↔ ∃ err, (callOpenAI w userPrompt apiKey).1
          = .error (str "failed to unmarshal response: " ++ w.jsonErrorText err))
    ∧ ((parseJSON resp.Body = none ∨ ∃ j, parseJSON resp.Body = some j ∧ fitsResponse j = false)
      → ∀ content, (callOpenAI w userPrompt apiKey).1 ≠ .ok content) := by
  obtain ⟨data, hdata⟩ := Marshal_buildRequest sys userPrompt
  have hcall := callOpenAI_answered w userPrompt apiKey exe sys data resp hexe hsys hdata
    (hdo data hdata)
  simp only [hstatus, hread, ne_eq, not_true_eq_false, if_false] at hcall
  rw [← unmarshal_error_iff]
  have hfwd : ∀ err, (UnmarshalResponse resp.Body ⟨.nil⟩).2 = some err →
      (callOpenAI w userPrompt apiKey).1
        = .error (str "failed to unmarshal response: " ++ w.jsonErrorText err) := by
    intro err he
    simp only [he] at hcall
    rw [hcall]
  refine ⟨⟨fun ⟨err, he⟩ => ⟨err, hfwd err he⟩, ?_⟩, ?_⟩
  · rintro ⟨err, he⟩
    cases hd : (UnmarshalResponse resp.Body ⟨.nil⟩).2 with
    | some e => exact ⟨e, rfl⟩
    | none =>
      simp only [hd] at hcall
      rw [hcall] at he
      cases hch : (UnmarshalResponse resp.Body ⟨.nil⟩).1.Choices.toList with
      | nil =>
        simp only [hch] at he
        have h2 := congrArg List.head? (Except.error.inj he)
        rw [show (str "failed to unmarshal response: " ++ w.jsonErrorText err).head? = some 0x66
          from rfl] at h2
        exact absurd h2 (by decide)
      | cons c cs =>
        simp only [hch] at he
        cases he
  · rintro ⟨err, he⟩ content hc
    rw [hfwd err he] at hc
    cases hc

/-- C6 (amended) at work: a body whose `choices` member is a string, and a body
that is not JSON. -/
theorem C6_parse_error_witness :
    (callOpenAI (bodyWorld wrongTypeBody) (str "Summarise.") (str "sk-test")).1
        = .error (str "failed to unmarshal response: " ++ str "json error")
    ∧ (callOpenAI (bodyWorld (str "not json")) (str "Summarise.") (str "sk-test")).1
        = .error (str "failed to unmarshal response: " ++ str "json error") := by
  obtain ⟨_, h1⟩ := (C6_parse_error (bodyWorld wrongTypeBody) (str "Summarise.") (str "sk-test")
    (str "/opt/coztrail/summary") (str "Summarise.") ⟨200, wrongTypeBody, none⟩
    rfl rfl (fun _ _ => rfl) rfl rfl).1.1
    (Or.inr ⟨.object [(str "choices", .string (str "none"))], by rfl, by decide!⟩)
  obtain ⟨_, h2⟩ := (C6_parse_error (bodyWorld (str "not json")) (str "Summarise.")
    (str "sk-test") (str "/opt/coztrail/summary") (str "Summarise.") ⟨200, str "not json", none⟩
    rfl rfl (fun _ _ => rfl) rfl rfl).1.1 (Or.inl (by rfl))
  exact ⟨h1, h2⟩

/-- C6 (counterexample): the body with a single empty choice object is valid
JSON and does not have the expected shape (the choice holds no message), yet
the decoder reports no error and callOpenAI returns the empty content, which
main prints with exit status 0. -/
theorem C6_bare_choice_accepted :
    parseJSON bareChoiceBody = some (.object [(str "choices", .array [.object []])])
    ∧ specShape (.object [(str "choices", .array [.object []])]) = false
    ∧ (UnmarshalResponse bareChoiceBody ⟨.nil⟩).2 = none
    ∧ (callOpenAI bareChoiceWorld (str "Summarise.") (str "sk-test")).1 = .ok []
    ∧ (main bareChoiceWorld).ExitCode = 0 ∧ (main bareChoiceWorld).Stdout = [] := by
  refine ⟨by rfl, by decide!, by decide!, by rfl, by decide!, by decide!⟩

end Coztrail
